import Mathlib

/-!
Verification of the clinect trial knowledge cache and graph-matching engine.

Shallow embedding of the repository's core (src/graph_models.py,
src/trial_cache.py, src/app.py).  The Neo4j property graph is modelled as
explicit lists of typed nodes and edges; each Cypher query of
graph_models.py is translated, row pipeline by row pipeline, into a pure
Lean function on that state.  The MongoDB cache is a list of documents.
Timestamps are integers (seconds).  Python exceptions become `Except` /
explicit failure oracles; Python truthiness of strings ("" is falsy) is
modelled explicitly.
-/

namespace Clinect

/-- Python truthiness of an optional string: `None` and `""` are falsy. -/
def strTruthy : Option String → Bool
  | none => false
  | some s => s ≠ ""

/-- Python `f"{x}"` on an optional string: `None` prints as `"None"`. -/
def pyStr : Option String → String
  | none => "None"
  | some s => s

/-- Lower-casing, modelling Python's `str.lower()` and Cypher's `toLower()`
(character-wise case mapping; `Char.toLower` covers the ASCII range the
trial data uses). -/
def strLower (s : String) : String := ⟨s.data.map Char.toLower⟩

/-- Descending insertion sort by a numeric key (stable: on equal keys the
earlier element stays first), modelling `ORDER BY score DESC`. -/
def insertDesc (key : α → Nat) (x : α) : List α → List α
  | [] => [x]
  | y :: ys => if key x > key y then x :: y :: ys else y :: insertDesc key x ys

/-- Sort a list by a numeric key, descending (stable). -/
def sortByDesc (key : α → Nat) : List α → List α
  | [] => []
  | x :: xs => insertDesc key x (sortByDesc key xs)

/-- Deduplicate keeping the first occurrence of each element, modelling
Cypher's `collect(DISTINCT ...)`. -/
def dedupFirst [BEq α] (seen : List α) : List α → List α
  | [] => []
  | x :: xs =>
      if seen.contains x then dedupFirst seen xs
      else x :: dedupFirst (x :: seen) xs

-- ============================================================================
-- Graph data model (Neo4j property graph, src/graph_models.py)
-- ============================================================================

/-- A `Trial` node (`MERGE (t:Trial {nctId: $nct_id})`). -/
structure TrialNode where
  nctId : String
  title : String
  status : String
  phase : List String
deriving DecidableEq, Repr

/-- A `Condition` node.  `nameNormalized` and `category` are optional:
`link_patient_to_condition` merges a bare `(c:Condition {name})` without
setting them, while `create_condition_node` sets both. -/
structure ConditionNode where
  name : String
  category : Option String
  nameNormalized : Option String
deriving DecidableEq, Repr

/-- A `Location` node, keyed by the composite `locationId`
(`"city, state"` or `"city, country"`).  The optional geocoordinates
(`latitude`/`longitude`) are omitted from the model: they are floating
point, are never read by any modelled query, and are always null on the
projection path. -/
structure LocationNode where
  locationId : String
  city : String
  state : Option String
  country : Option String
deriving DecidableEq, Repr

/-- A `Patient` node (`MERGE (p:Patient {userId: $user_id})`). -/
structure PatientNode where
  userId : Int
  age : Option Int
  gender : Option String
deriving DecidableEq, Repr

/-- The whole property graph.  Relationships are kept as endpoint-key pairs
(`MERGE` keeps them duplicate-free). -/
structure GraphState where
  trials : List TrialNode
  conditions : List ConditionNode
  locations : List LocationNode
  patients : List PatientNode
  /-- `(t)-[:TREATS]->(c)` as `(nctId, condition name)` pairs. -/
  treats : List (String × String)
  /-- `(t)-[:LOCATED_IN]->(l)` as `(nctId, locationId)` pairs. -/
  locatedIn : List (String × String)
  /-- `(p)-[:HAS_CONDITION]->(c)` as `(userId, condition name)` pairs. -/
  hasCondition : List (Int × String)
  /-- `(p)-[:SAVED_TRIAL]->(t)` as `(userId, nctId)` pairs. -/
  savedTrial : List (Int × String)
deriving DecidableEq, Repr

/-- The empty graph. -/
def GraphState.empty : GraphState :=
  ⟨[], [], [], [], [], [], [], []⟩

-- ----------------------------------------------------------------------------
-- Node upserts (MERGE ... SET ...)
-- ----------------------------------------------------------------------------

/-- `create_trial_node`: `MERGE (t:Trial {nctId}) SET title, status, phase`. -/
def create_trial_node (g : GraphState) (nct_id title status : String)
    (phase : List String) : GraphState :=
  if g.trials.any (fun t => t.nctId == nct_id) then
    { g with trials := g.trials.map (fun t =>
        if t.nctId == nct_id then ⟨nct_id, title, status, phase⟩ else t) }
  else
    { g with trials := g.trials ++ [⟨nct_id, title, status, phase⟩] }

/-- `create_condition_node`: `MERGE (c:Condition {name}) SET c.category,
c.nameNormalized = toLower($name)`.  The merge key is the exact (case
sensitive) display name. -/
def create_condition_node (g : GraphState) (name : String)
    (category : Option String) : GraphState :=
  if g.conditions.any (fun c => c.name == name) then
    { g with conditions := g.conditions.map (fun c =>
        if c.name == name then ⟨name, category, some (strLower name)⟩ else c) }
  else
    { g with conditions := g.conditions ++ [⟨name, category, some (strLower name)⟩] }

/-- The region half of a location's composite identity: the state when
truthy, else the country (as the f-string prints it). -/
def regionOf (state country : Option String) : String :=
  if strTruthy state then pyStr state else pyStr country

/-- The composite location identifier computed by `create_location_node`:
`f"{city}, {state}" if state else f"{city}, {country}"`. -/
def locationKey (city : String) (state country : Option String) : String :=
  if strTruthy state then city ++ ", " ++ pyStr state
  else city ++ ", " ++ pyStr country

/-- `create_location_node`: `MERGE (l:Location {locationId}) SET city, state,
country` (geocoordinate parameters omitted, see `LocationNode`). -/
def create_location_node (g : GraphState) (city : String)
    (state country : Option String) : GraphState :=
  if g.locations.any (fun l => l.locationId == locationKey city state country) then
    { g with locations := g.locations.map (fun l =>
        if l.locationId == locationKey city state country then
          ⟨locationKey city state country, city, state, country⟩
        else l) }
  else
    { g with locations := g.locations
        ++ [⟨locationKey city state country, city, state, country⟩] }

/-- `create_patient_node`: `MERGE (p:Patient {userId}) SET age, gender`. -/
def create_patient_node (g : GraphState) (user_id : Int)
    (age : Option Int) (gender : Option String) : GraphState :=
  if g.patients.any (fun p => p.userId == user_id) then
    { g with patients := g.patients.map (fun p =>
        if p.userId == user_id then ⟨user_id, age, gender⟩ else p) }
  else
    { g with patients := g.patients ++ [⟨user_id, age, gender⟩] }

-- ----------------------------------------------------------------------------
-- Relationship upserts
-- ----------------------------------------------------------------------------

/-- `link_trial_to_condition`: `MATCH (t) MATCH (c) MERGE (t)-[:TREATS]->(c)`.
If either endpoint is missing the `MATCH` yields no row and nothing happens. -/
def link_trial_to_condition (g : GraphState) (nct_id condition_name : String) :
    GraphState :=
  if g.trials.any (fun t => t.nctId == nct_id)
      && g.conditions.any (fun c => c.name == condition_name)
      && !(g.treats.contains (nct_id, condition_name)) then
    { g with treats := g.treats ++ [(nct_id, condition_name)] }
  else g

/-- `link_trial_to_location`: `MATCH (t) MATCH (l) MERGE (t)-[:LOCATED_IN]->(l)`. -/
def link_trial_to_location (g : GraphState) (nct_id location_id : String) :
    GraphState :=
  if g.trials.any (fun t => t.nctId == nct_id)
      && g.locations.any (fun l => l.locationId == location_id)
      && !(g.locatedIn.contains (nct_id, location_id)) then
    { g with locatedIn := g.locatedIn ++ [(nct_id, location_id)] }
  else g

/-- `link_patient_to_condition`: `MATCH (p) MERGE (c:Condition {name})
MERGE (p)-[:HAS_CONDITION]->(c)`.  Note the bare `MERGE` on the condition:
when absent it creates a node with only the name (no `nameNormalized`). -/
def link_patient_to_condition (g : GraphState) (user_id : Int)
    (condition_name : String) : GraphState :=
  if g.patients.any (fun p => p.userId == user_id) then
    let g1 :=
      if g.conditions.any (fun c => c.name == condition_name) then g
      else { g with conditions := g.conditions ++ [⟨condition_name, none, none⟩] }
    if g1.hasCondition.contains (user_id, condition_name) then g1
    else { g1 with hasCondition := g1.hasCondition ++ [(user_id, condition_name)] }
  else g

/-- `link_patient_saved_trial`: `MATCH (p) MATCH (t) MERGE (p)-[:SAVED_TRIAL]->(t)`. -/
def link_patient_saved_trial (g : GraphState) (user_id : Int) (nct_id : String) :
    GraphState :=
  if g.patients.any (fun p => p.userId == user_id)
      && g.trials.any (fun t => t.nctId == nct_id)
      && !(g.savedTrial.contains (user_id, nct_id)) then
    { g with savedTrial := g.savedTrial ++ [(user_id, nct_id)] }
  else g

-- ============================================================================
-- find_matching_trials (src/graph_models.py lines 206-266)
-- ============================================================================

/-- One result row of `find_matching_trials`
(`RETURN t.nctId, t.title, t.status, t.phase, matchScore`). -/
structure MatchRow where
  nctId : String
  title : String
  status : String
  phase : List String
  matchScore : Nat
deriving DecidableEq, Repr

/-- The condition predicate of the built Cypher query:
`c.name IN $conditions OR c.nameNormalized IN $conditions_normalized`
(where `$conditions_normalized = [c.lower() for c in conditions]`; a null
`nameNormalized` never matches the `IN`). -/
def conditionMatches (conds : List String) (c : ConditionNode) : Bool :=
  conds.contains c.name ||
    (match c.nameNormalized with
     | some n => (conds.map strLower).contains n
     | none => false)

/-- Condition score term of `find_matching_trials`: `count(DISTINCT c) * 10`
over `OPTIONAL MATCH (t)-[:TREATS]->(c)` with the predicate above; `0` when
no conditions were supplied (`if conditions and len(conditions) > 0`). -/
def conditionScore (g : GraphState) (conds : List String) (t : TrialNode) : Nat :=
  if conds.isEmpty then 0
  else 10 * (g.conditions.filter (fun c =>
      g.treats.contains (t.nctId, c.name) && conditionMatches conds c)).length

/-- Location score term: `count(DISTINCT l) * 5` over
`OPTIONAL MATCH (t)-[:LOCATED_IN]->(l:Location {locationId: $location_id})`;
`0` when no (truthy) location id was supplied. -/
def locationScore (g : GraphState) (location_id : Option String) (t : TrialNode) :
    Nat :=
  if strTruthy location_id then
    5 * (g.locations.filter (fun l =>
        l.locationId == pyStr location_id
          && g.locatedIn.contains (t.nctId, l.locationId))).length
  else 0

/-- `find_matching_trials(conditions, location_id, status, max_distance_km,
limit)`.  The Cypher pipeline: filter trials by status, score by the two
optional-match terms, keep `matchScore > 0`, `ORDER BY matchScore DESC`,
`LIMIT $limit`.  (`max_distance_km` is accepted by the Python signature but
never used in the query, so it is not a parameter here.) -/
def find_matching_trials (g : GraphState) (conditions : List String)
    (location_id : Option String) (status : String) (limit : Nat) :
    List MatchRow :=
  let candidates := g.trials.filter (fun t => t.status == status)
  let scored := candidates.map (fun t =>
    MatchRow.mk t.nctId t.title t.status t.phase
      (conditionScore g conditions t + locationScore g location_id t))
  let kept := scored.filter (fun r => r.matchScore > 0)
  (sortByDesc (fun r : MatchRow => r.matchScore) kept).take limit

/-- Spec-side condition term: `10 ×` the number of distinct conditions the
trial treats that case-insensitively match any requested condition (`0`
when the request list is empty). -/
def specConditionScore (g : GraphState) (conditions : List String)
    (t : TrialNode) : Nat :=
  if conditions.isEmpty then 0
  else 10 * (g.conditions.filter (fun c =>
      g.treats.contains (t.nctId, c.name)
        && (conditions.map strLower).contains (strLower c.name))).length

/-- Spec-side location term: `5` if the trial is located at the exact given
location identity, else `0`. -/
def specLocationScore (g : GraphState) (location_id : Option String)
    (t : TrialNode) : Nat :=
  if strTruthy location_id then
    if g.locations.any (fun l =>
        l.locationId == pyStr location_id
          && g.locatedIn.contains (t.nctId, l.locationId)) then 5 else 0
  else 0

/-- Spec-side restatement of the matching algorithm, following the words of
the specification (§4.2 scoring algorithm): candidates are the trials with
the given status; the score is the condition term plus the location term;
score-0 candidates are excluded; the rest are sorted by score descending
and truncated to `limit`. -/
def findMatchingTrialsSpec (g : GraphState) (conditions : List String)
    (location_id : Option String) (status : String) (limit : Nat) :
    List MatchRow :=
  let candidates := g.trials.filter (fun t => t.status == status)
  let scored := candidates.map (fun t =>
    MatchRow.mk t.nctId t.title t.status t.phase
      (specConditionScore g conditions t + specLocationScore g location_id t))
  let kept := scored.filter (fun r => r.matchScore > 0)
  (sortByDesc (fun r : MatchRow => r.matchScore) kept).take limit

-- ============================================================================
-- find_related_trials (src/graph_models.py lines 268-312)
-- ============================================================================

/-- One result row of `find_related_trials`. -/
structure RelatedRow where
  nctId : String
  title : String
  status : String
  phase : List String
  sharedConditions : List String
  sharedLocations : List String
  relationshipScore : Nat
deriving DecidableEq, Repr

/-- `find_related_trials(nct_id, limit)`.  The Cypher binds candidate trials
`t2` ONLY through the first pattern
`(t1)-[:TREATS]->(c:Condition)<-[:TREATS]-(t2)` (an `OPTIONAL MATCH`, but
`OPTIONAL MATCH` never eliminates rows, it just binds null when nothing
matches, and a null `t2` collects empty lists and is dropped by
`WHERE relationshipScore > 0`).  Hence a candidate appears iff it shares at
least one condition; shared locations of such a candidate are then collected
by the second `OPTIONAL MATCH` and only add to its score. -/
def find_related_trials (g : GraphState) (nct_id : String) (limit : Nat) :
    List RelatedRow :=
  match g.trials.find? (fun t => t.nctId == nct_id) with
  | none => []
  | some t1 =>
    let rows := (g.trials.filter (fun t2 => t2.nctId != nct_id)).filterMap
      (fun t2 =>
        let sharedConditions := dedupFirst []
          ((g.conditions.filter (fun c =>
              g.treats.contains (t1.nctId, c.name)
                && g.treats.contains (t2.nctId, c.name))).map (fun c => c.name))
        if sharedConditions.isEmpty then none
        else
          let sharedLocations := dedupFirst []
            ((g.locations.filter (fun l =>
                g.locatedIn.contains (t1.nctId, l.locationId)
                  && g.locatedIn.contains (t2.nctId, l.locationId))).map
              (fun l => l.locationId))
          some (RelatedRow.mk t2.nctId t2.title t2.status t2.phase
            sharedConditions sharedLocations
            (sharedConditions.length * 3 + sharedLocations.length)))
    (sortByDesc (fun r : RelatedRow => r.relationshipScore) rows).take limit

-- ============================================================================
-- get_patient_recommendations (src/graph_models.py lines 314-354)
-- ============================================================================

/-- One result row of `get_patient_recommendations`.  The trial fields are
optional because the Cypher can return a row whose `t` is null (a patient
condition with no recruiting trial groups under `t = null`). -/
structure RecRow where
  nctId : Option String
  title : Option String
  status : Option String
  phase : Option (List String)
  matchingConditions : List String
  matchScore : Nat
deriving DecidableEq, Repr

/-- `get_patient_recommendations(user_id, limit)`, translated row pipeline by
row pipeline from the Cypher:

* `MATCH (p:Patient {userId})` — empty result when the patient is absent;
* `OPTIONAL MATCH (p)-[:HAS_CONDITION]->(pc)` — one row per patient
  condition, or a single null row;
* `OPTIONAL MATCH (t:Trial)-[:TREATS]->(pc) WHERE t.status = 'RECRUITING'`
  — expands each row per treating recruiting trial, null when none;
* `OPTIONAL MATCH (p)-[:SAVED_TRIAL]->(saved) WHERE t <> saved OR saved IS
  NULL` — being an `OPTIONAL MATCH`, this only multiplies rows (binding the
  saved trials different from `t`, or null); it never removes the row with
  the saved `t`, so it has no effect on the grouped result;
* `WITH p, t, collect(DISTINCT pc.name)` — group rows by `t` (`collect`
  skips nulls), keep groups with at least one condition name, score by the
  group size, sort descending, truncate. -/
def get_patient_recommendations (g : GraphState) (user_id : Int) (limit : Nat) :
    List RecRow :=
  if g.patients.any (fun p => p.userId == user_id) then
    let pcs := g.conditions.filter (fun c =>
      g.hasCondition.contains (user_id, c.name))
    let pcRows : List (Option ConditionNode) :=
      if pcs.isEmpty then [none] else pcs.map some
    let rows : List (Option ConditionNode × Option TrialNode) :=
      pcRows.flatMap (fun pc? =>
        match pc? with
        | none => [(none, none)]
        | some pc =>
          let ts := g.trials.filter (fun t =>
            t.status == "RECRUITING" && g.treats.contains (t.nctId, pc.name))
          if ts.isEmpty then [(some pc, none)] else ts.map (fun t => (some pc, some t)))
    -- the SAVED_TRIAL optional match: multiplies each row by the saved
    -- trials distinct from `t` (at least one copy always survives), leaving
    -- every group and every distinct-collect below unchanged
    let rows2 : List (Option ConditionNode × Option TrialNode) :=
      rows.flatMap (fun r =>
        match r.2 with
        | none => [r]
        | some t =>
          let saved := g.trials.filter (fun s =>
            g.savedTrial.contains (user_id, s.nctId) && s.nctId != t.nctId)
          if saved.isEmpty then [r] else saved.map (fun _ => r))
    let tKeys : List (Option TrialNode) := dedupFirst [] (rows2.map (fun r => r.2))
    let grouped := tKeys.map (fun t? =>
      let mc := dedupFirst []
        ((rows2.filter (fun r => r.2 == t?)).filterMap
          (fun r => r.1.map (fun c => c.name)))
      RecRow.mk (t?.map (fun t => t.nctId)) (t?.map (fun t => t.title))
        (t?.map (fun t => t.status)) (t?.map (fun t => t.phase)) mc mc.length)
    let kept := grouped.filter (fun r => r.matchScore > 0)
    (sortByDesc (fun r : RecRow => r.matchScore) kept).take limit

  else []

-- ============================================================================
-- Origin records (the subset of the registry payload this core reads)
-- ============================================================================

/-- One entry of `contactsLocationsModule.locations`
(each field read with `.get(..., '')`). -/
structure LocationRecord where
  city : String
  state : String
  country : String
deriving DecidableEq, Repr

/-- The fields of a study's `protocolSection` that the core reads.  The
nested modules (`identificationModule`, `statusModule`, `designModule`,
`conditionsModule`, `contactsLocationsModule`) are flattened: each is read
with a `{}` default, so an absent module is indistinguishable from a module
with all fields absent.  Fields read with differing defaults at different
call sites (`briefTitle`, `overallStatus`, `nctId`) stay `Option`; fields
always read with the same default collapse to that type. -/
structure ProtocolSection where
  nctId : Option String
  briefTitle : Option String
  overallStatus : Option String
  phases : List String
  conditions : List String
  locations : List LocationRecord
deriving DecidableEq, Repr

/-- A study record as returned by the origin registry
(`study.get('protocolSection')` may be absent). -/
structure Study where
  protocolSection : Option ProtocolSection
deriving DecidableEq, Repr

/-- An empty `protocolSection` (the `{}` default of `.get`). -/
def ProtocolSection.empty : ProtocolSection := ⟨none, none, none, [], [], []⟩

/-- The trial identifier extracted by both `cache_trial` and
`sync_trial_to_neo4j`:
`trial_data.get('protocolSection', {}).get('identificationModule', {}).get('nctId')`. -/
def Study.extractNctId (s : Study) : Option String :=
  (s.protocolSection.getD ProtocolSection.empty).nctId

-- ============================================================================
-- Cache store (MongoDB trials_cache collection, src/trial_cache.py)
-- ============================================================================

/-- `CACHE_EXPIRATION_DAYS = 7`. -/
def CACHE_EXPIRATION_DAYS : Int := 7

/-- Seconds per day (`timedelta(days=n)` on integer-second timestamps). -/
def secondsPerDay : Int := 86400

/-- The expiry window in seconds. -/
def cacheWindow : Int := CACHE_EXPIRATION_DAYS * secondsPerDay

/-- The `searchableFields` sub-document built by `cache_trial`. -/
structure SearchableFields where
  conditions : List String
  status : String
  phase : List String
  locations : List String
deriving DecidableEq, Repr

/-- A document of the `trials_cache` collection. -/
structure CacheDoc where
  nctId : String
  protocolSection : ProtocolSection
  cachedAt : Int
  searchableFields : SearchableFields
deriving DecidableEq, Repr

/-- The cache store: the ordered collection of documents. -/
abbrev CacheStore := List CacheDoc

/-- The `"City, Region"` strings of `searchableFields.locations`
(`f"{city}, {state}"` when city and state are truthy, else
`f"{city}, {country}"` when city and country are truthy, else skipped). -/
def searchableLocations (locs : List LocationRecord) : List String :=
  locs.filterMap (fun loc =>
    if loc.city ≠ "" && loc.state ≠ "" then some (loc.city ++ ", " ++ loc.state)
    else if loc.city ≠ "" && loc.country ≠ "" then
      some (loc.city ++ ", " ++ loc.country)
    else none)

/-- The cache document `cache_trial` builds at time `now` for a study with
(truthy) identifier `nct_id`. -/
def mkCacheDoc (nct_id : String) (p : ProtocolSection) (now : Int) : CacheDoc :=
  { nctId := nct_id
    protocolSection := p
    cachedAt := now
    searchableFields :=
      { conditions := p.conditions
        status := p.overallStatus.getD ""
        phase := p.phases
        locations := searchableLocations p.locations } }

/-- `update_one({'nctId': ...}, {'$set': doc}, upsert=True)`: replace the
document with this id, or append it. -/
def mongoUpsert (cs : CacheStore) (doc : CacheDoc) : CacheStore :=
  if (cs : List CacheDoc).any (fun d => d.nctId == doc.nctId) then
    (cs : List CacheDoc).map (fun d => if d.nctId == doc.nctId then doc else d)
  else (cs : List CacheDoc) ++ [doc]

/-- `get_cached_trial(nct_id)` at time `now`: `find_one`, then the lazy
expiry check — a document with `cachedAt < now - window` is deleted
(`delete_one`) and reported as a miss.  Returns (result, updated store). -/
def get_cached_trial (cs : CacheStore) (now : Int) (nct_id : String) :
    Option CacheDoc × CacheStore :=
  match (cs : List CacheDoc).find? (fun d => d.nctId == nct_id) with
  | none => (none, cs)
  | some doc =>
      if doc.cachedAt < now - cacheWindow then
        (none, ((cs : List CacheDoc).eraseP (fun d => d.nctId == nct_id) : List CacheDoc))
      else (some doc, cs)

/-- Case-insensitive substring test, modelling the `$regex` /
`$options: 'i'` Mongo filter applied to a literal pattern. -/
def containsCI (hay needle : String) : Bool :=
  decide (List.IsInfix (strLower needle).toList (strLower hay).toList)

/-- The Mongo query predicate built by `search_cached_trials`: condition and
location filters are case-insensitive substring matches over the searchable
arrays, status is an exact match, and `cachedAt` must be `$gte`
`now - window`.  Falsy (absent or empty) filters are wildcards. -/
def searchPredicate (now : Int) (condition location status : Option String)
    (d : CacheDoc) : Bool :=
  (if strTruthy condition then
      d.searchableFields.conditions.any (fun c => containsCI c (pyStr condition))
    else true)
  && (if strTruthy location then
      d.searchableFields.locations.any (fun l => containsCI l (pyStr location))
    else true)
  && (if strTruthy status then d.searchableFields.status == pyStr status else true)
  && decide (d.cachedAt ≥ now - cacheWindow)

/-- `search_cached_trials(condition, location, status, limit)` at time `now`:
`find(query).limit(limit)`.  The read performs no write, so the store is
passed through unchanged (expired documents are filtered out of the result
but NOT deleted — only `get_cached_trial` deletes lazily). -/
def search_cached_trials (cs : CacheStore) (now : Int)
    (condition location status : Option String) (limit : Nat) :
    List CacheDoc × CacheStore :=
  (((cs : List CacheDoc).filter (searchPredicate now condition location status)).take limit, cs)

-- ============================================================================
-- SyncEngine (sync_trial_to_neo4j, src/trial_cache.py lines 13-80)
-- ============================================================================

/-- Failure oracle: which store operations raise.  `graphFails op key` says
whether the Neo4j write `op` applied to natural key `key` raises (graph
unavailable, rejected write); `mongoFails id` says whether the Mongo
`update_one` for document `id` raises. -/
structure FailureOracle where
  graphFails : String → String → Bool
  mongoFails : String → Bool

/-- The all-healthy oracle: no store operation fails. -/
def FailureOracle.none : FailureOracle := ⟨fun _ _ => false, fun _ => false⟩

/-- One Neo4j write of the projection: operation name, natural key, and its
effect on the graph. -/
structure SyncOp where
  op : String
  key : String
  apply : GraphState → GraphState

/-- Run a sequence of Neo4j writes in order.  Each write is its own
committed transaction: a raise (per the oracle) aborts the sequence,
keeping everything already committed, and reports the error. -/
def runSyncOps (o : FailureOracle) : List SyncOp → GraphState →
    Option String × GraphState
  | [], g => (Option.none, g)
  | step :: rest, g =>
      if o.graphFails step.op step.key then
        (some ("neo4j error: " ++ step.op), g)
      else runSyncOps o rest (step.apply g)

/-- The pair of graph writes the projection issues for one truthy condition
string: Condition upsert, then TREATS link (nothing for a falsy string). -/
def conditionSteps (nct : String) (cname : String) : List SyncOp :=
  if cname ≠ "" then
    [⟨"create_condition_node", cname, fun g =>
        create_condition_node g cname Option.none⟩,
     ⟨"link_trial_to_condition", nct ++ "|" ++ cname, fun g =>
        link_trial_to_condition g nct cname⟩]
  else []

/-- The pair of graph writes the projection issues for one location record:
Location upsert + LOCATED_IN link keyed by the composite `"city, region"`
id.  NOTE the first branch: when city and state are both truthy the
location is upserted with `country='USA'` regardless of the record's own
country field. -/
def locationSteps (nct : String) (loc : LocationRecord) : List SyncOp :=
  if loc.city ≠ "" && loc.state ≠ "" then
    [⟨"create_location_node", loc.city ++ ", " ++ loc.state, fun g =>
        create_location_node g loc.city (some loc.state) (some "USA")⟩,
     ⟨"link_trial_to_location", nct ++ "|" ++ (loc.city ++ ", " ++ loc.state),
      fun g => link_trial_to_location g nct (loc.city ++ ", " ++ loc.state)⟩]
  else if loc.city ≠ "" && loc.country ≠ "" then
    [⟨"create_location_node", loc.city ++ ", " ++ loc.country, fun g =>
        create_location_node g loc.city Option.none (some loc.country)⟩,
     ⟨"link_trial_to_location", nct ++ "|" ++ (loc.city ++ ", " ++ loc.country),
      fun g => link_trial_to_location g nct (loc.city ++ ", " ++ loc.country)⟩]
  else []

/-- The sequence of graph writes the `try` body of `sync_trial_to_neo4j`
issues for a record with truthy id `nct`: upsert the trial node, then the
condition writes, then the location writes, in record order. -/
def syncSteps (nct : String) (p : ProtocolSection) : List SyncOp :=
  [⟨"create_trial_node", nct, fun g =>
      create_trial_node g nct (p.briefTitle.getD "") (p.overallStatus.getD "")
        p.phases⟩]
  ++ p.conditions.flatMap (conditionSteps nct)
  ++ p.locations.flatMap (locationSteps nct)

/-- `sync_trial_to_neo4j`: returns `False` (graph untouched) when the record
has no truthy `nctId`; otherwise runs the projection writes wrapped in
`try/except Exception` — every raise is swallowed and turned into the
`False` return, keeping the writes committed before the raise.  The
function itself never raises. -/
def sync_trial_to_neo4j (o : FailureOracle) (s : Study) (g : GraphState) :
    Bool × GraphState :=
  let p := s.protocolSection.getD ProtocolSection.empty
  let nct := p.nctId.getD ""
  if nct = "" then (false, g)
  else
    match runSyncOps o (syncSteps nct p) g with
    | (Option.none, g') => (true, g')
    | (some _, g') => (false, g')

-- ============================================================================
-- cache_trial (src/trial_cache.py lines 82-150)
-- ============================================================================

/-- `cache_trial(trial_data)` at time `now`: extract the id (reject a record
without a truthy `nctId`), build the cache document, `update_one` upsert
(whose raise is caught, returning `False` with nothing written), then the
best-effort `sync_trial_to_neo4j` (which never raises).  Returns
(success flag, cache store, graph state). -/
def cache_trial (o : FailureOracle) (s : Study) (now : Int)
    (cs : CacheStore) (g : GraphState) : Bool × CacheStore × GraphState :=
  let p := s.protocolSection.getD ProtocolSection.empty
  match p.nctId with
  | Option.none => (false, cs, g)
  | some nct =>
    if nct = "" then (false, cs, g)
    else if o.mongoFails nct then (false, cs, g)
    else
      let cs' := mongoUpsert cs (mkCacheDoc nct p now)
      let (_synced, g') := sync_trial_to_neo4j o s g
      (true, cs', g')

-- ============================================================================
-- MatchEngine (smart_match_trials, src/app.py lines 544-683;
-- call_smart_match_internal, lines 147-257, shares the same pipeline)
-- ============================================================================

/-- The request sent to the origin registry
(`GET {CLINICAL_TRIALS_API_BASE}/studies`). -/
structure ApiRequest where
  queryTerm : Option String
  pageSize : Nat
  statusFilter : String
deriving DecidableEq, Repr

/-- The parsed origin response body.  `studies` is `Option` because the code
distinguishes `'studies' in api_data` from an empty list. -/
structure ApiData where
  studies : Option (List Study)
deriving DecidableEq, Repr

/-- The origin registry as a collaborator: a single call either yields a
parsed body or fails (network error, non-2xx raised by
`raise_for_status`, or a JSON parse error). -/
abbrev OriginClient := ApiRequest → Except String ApiData

/-- The outcome of a match call: either a uniformly shaped result list with
its provenance (`method`), or a transport failure carrying no results
(`smart_match_trials` re-raises into the endpoint's 500 handler;
`call_smart_match_internal` returns `success: False` with no matches). -/
inductive MatchResult where
  | ok (rows : List MatchRow) (method : String)
  | err (msg : String)
deriving DecidableEq, Repr

/-- What a match call produced and did: the result, the origin requests
issued (in order), and the stores after the call. -/
structure MatchOutcome where
  result : MatchResult
  requests : List ApiRequest
  cache : CacheStore
  graph : GraphState

/-- The fallback request built when the graph returns nothing:
`query.term` AND-joins `AREA[ConditionSearch]<c1 OR c2 OR ...>` (when
conditions were given) with `AREA[LocationSearch]<location>` (when a
location was given); `pageSize=20`, `filter.overallStatus='RECRUITING'`. -/
def mkApiRequest (conditions : List String) (location : Option String) :
    ApiRequest :=
  let queryParts :=
    (if !conditions.isEmpty then
        ["AREA[ConditionSearch]" ++ String.intercalate " OR " conditions]
      else [])
    ++ (if strTruthy location then ["AREA[LocationSearch]" ++ pyStr location]
      else [])
  { queryTerm :=
      if !queryParts.isEmpty then some (String.intercalate " AND " queryParts)
      else Option.none
    pageSize := 20
    statusFilter := "RECRUITING" }

/-- Format one fetched study into the uniform match-row shape
(studies without a `protocolSection` or a truthy `nctId` are skipped;
`matchScore` is `0` for fallback results). -/
def formatStudy (s : Study) : Option MatchRow :=
  match s.protocolSection with
  | Option.none => Option.none
  | some p =>
    match p.nctId with
    | Option.none => Option.none
    | some nct =>
      if nct = "" then Option.none
      else some (MatchRow.mk nct (p.briefTitle.getD "Unknown Title")
        (p.overallStatus.getD "Unknown") p.phases 0)

/-- `smart_match_trials` (and identically `call_smart_match_internal`):
query the graph first; a non-empty graph result is returned immediately with
provenance `graph` and no origin call; otherwise call the origin once —
a transport failure fails the whole match — then cache + best-effort sync
every returned study (each `cache_trial` wrapped in its own `try/except`,
so per-record failures only skip that record's caching), and return the
formatted studies with provenance `api_fallback`. -/
def smart_match_trials (o : FailureOracle) (origin : OriginClient)
    (g : GraphState) (cs : CacheStore) (now : Int)
    (conditions : List String) (location : Option String) : MatchOutcome :=
  let results := find_matching_trials g conditions location "RECRUITING" 20
  if results.length > 0 then
    ⟨.ok results "graph", [], cs, g⟩
  else
    let req := mkApiRequest conditions location
    match origin req with
    | .error e => ⟨.err e, [req], cs, g⟩
    | .ok apiData =>
      let stores :=
        match apiData.studies with
        | Option.none => (cs, g)
        | some studies =>
          studies.foldl (fun (st : CacheStore × GraphState) study =>
            let (_ok, cs2, g2) := cache_trial o study now st.1 st.2
            (cs2, g2)) (cs, g)
      let formatted := (apiData.studies.getD []).filterMap formatStudy
      ⟨.ok formatted "api_fallback", [req], stores.1, stores.2⟩

/-- The result list carried by a match outcome (`err` carries none). -/
def MatchResult.rowsOf : MatchResult → List MatchRow
  | .ok ms _ => ms
  | .err _ => []

/-- A fetched study is well-formed when it carries a `protocolSection` with
a truthy `nctId` (the origin contract calls a record without an identifier
a data-quality error, skipped rather than returned). -/
def studyWellFormed (s : Study) : Bool :=
  match s.protocolSection with
  | some p =>
    match p.nctId with
    | some nct => nct ≠ ""
    | Option.none => false
  | Option.none => false

-- ============================================================================
-- Example data (built through the model's own operations)
-- ============================================================================

/-- A small populated graph: one recruiting trial treating Diabetes and
Hypertension, located in Boston, MA; one completed trial. -/
def exampleGraphMatch : GraphState :=
  let g := GraphState.empty
  let g := create_trial_node g "NCT001" "Trial One" "RECRUITING" ["PHASE2"]
  let g := create_trial_node g "NCT999" "Trial Done" "COMPLETED" []
  let g := create_condition_node g "Diabetes" Option.none
  let g := create_condition_node g "Hypertension" Option.none
  let g := create_location_node g "Boston" (some "MA") Option.none
  let g := link_trial_to_condition g "NCT001" "Diabetes"
  let g := link_trial_to_condition g "NCT001" "Hypertension"
  let g := link_trial_to_location g "NCT001" "Boston, MA"
  g

-- ============================================================================
-- Claim theorems
-- ============================================================================

/-- Two condition upserts whose names differ only in letter case: the result
of upserting `"Diabetes"` then `"DIABETES"` into the empty graph. -/
def condCaseGraph : GraphState :=
  create_condition_node
    (create_condition_node GraphState.empty "Diabetes" Option.none)
    "DIABETES" Option.none

/-- A graph where patient 1 has Diabetes, recruiting trial NCT001 treats
Diabetes, and patient 1 has already saved NCT001. -/
def savedTrialGraph : GraphState :=
  let g := GraphState.empty
  let g := create_patient_node g 1 Option.none Option.none
  let g := create_trial_node g "NCT001" "Trial One" "RECRUITING" []
  let g := link_patient_to_condition g 1 "Diabetes"
  let g := link_trial_to_condition g "NCT001" "Diabetes"
  let g := link_patient_saved_trial g 1 "NCT001"
  g

/-- A graph with two recruiting trials sharing only a location (no shared
conditions). -/
def locationOnlyGraph : GraphState :=
  let g := GraphState.empty
  let g := create_trial_node g "NCT001" "Trial One" "RECRUITING" []
  let g := create_trial_node g "NCT002" "Trial Two" "RECRUITING" []
  let g := create_location_node g "Boston" (some "MA") Option.none
  let g := link_trial_to_location g "NCT001" "Boston, MA"
  let g := link_trial_to_location g "NCT002" "Boston, MA"
  g

/-- An expired cache document, cached at time 0. -/
def expiredDoc : CacheDoc := mkCacheDoc "NCT001" ProtocolSection.empty 0

/-- A concrete well-formed origin record (a non-US location carrying a
state, for the projection claims). -/
def stubProtocol : ProtocolSection :=
  ⟨some "NCT777", some "Stub Trial", some "RECRUITING", ["PHASE1"],
    ["Asthma"], [⟨"Toronto", "Ontario", "Canada"⟩]⟩

/-- The stub record as a fetched study. -/
def stubStudy : Study := ⟨some stubProtocol⟩

/-- An origin response carrying the stub study. -/
def stubApiData : ApiData := ⟨some [stubStudy]⟩

/-- An origin client that always answers with the stub response. -/
def stubOrigin : OriginClient := fun _ => .ok stubApiData

/-- An origin client that always fails with a transport error. -/
def stubOriginErr : OriginClient := fun _ => .error "connection refused"

/-- An oracle under which every Neo4j write raises. -/
def allGraphFailOracle : FailureOracle := ⟨fun _ _ => true, fun _ => false⟩

/-- The property C10 asserts of a projected graph: a Location node with the
given composite id exists, and every such node records country `'USA'`. -/
def usaLocInv (tid : String) (g : GraphState) : Prop :=
  (∃ l ∈ g.locations, l.locationId = tid)
  ∧ ∀ l ∈ g.locations, l.locationId = tid → l.country = some "USA"

-- ============================================================================
-- Helper lemmas
-- ============================================================================

/-- In a list whose keys are pairwise distinct, at most one element carries a
given key, whatever extra predicate is imposed (the Neo4j uniqueness
constraints of init_neo4j.py give exactly this shape). -/
theorem length_filter_keyed_le_one {α β : Type} [DecidableEq β] (f : α → β)
    (p : α → Bool) (v : β) :
    ∀ l : List α, (l.map f).Nodup →
      (l.filter (fun x => f x == v && p x)).length ≤ 1 := by
  intro l
  induction l with
  | nil => intro _; simp
  | cons a l ih =>
    intro h
    rw [List.map_cons, List.nodup_cons] at h
    rw [List.filter_cons]
    by_cases ha : (f a == v && p a) = true
    · rw [if_pos ha]
      have hfa : f a = v := beq_iff_eq.mp ((Bool.and_eq_true _ _).mp ha).1
      have hnil : l.filter (fun x => f x == v && p x) = [] := by
        rw [List.filter_eq_nil_iff]
        intro x hx hpx
        have hfx : f x = v := beq_iff_eq.mp ((Bool.and_eq_true _ _).mp hpx).1
        have hmem : f x ∈ List.map f l := List.mem_map_of_mem f hx
        rw [hfx, ← hfa] at hmem
        exact h.1 hmem
      rw [hnil]
      simp
    · rw [if_neg ha]
      exact ih h.2

/-- When `nameNormalized` carries the lowercase display name (the invariant
`create_condition_node` establishes), the built query's condition predicate
is exactly case-insensitive matching against the requested names. -/
theorem conditionMatches_eq_ci (conds : List String) (c : ConditionNode)
    (h : c.nameNormalized = some (strLower c.name)) :
    conditionMatches conds c = (conds.map strLower).contains (strLower c.name) := by
  unfold conditionMatches
  rw [h]
  cases hc : conds.contains c.name with
  | false => simp
  | true =>
    have hm : c.name ∈ conds := List.elem_iff.mp hc
    have hcc : (conds.map strLower).contains (strLower c.name) = true :=
      List.elem_iff.mpr (List.mem_map_of_mem strLower hm)
    rw [hcc]
    simp

/-- The condition term of the built query equals the spec-side term under
the normalization invariant. -/
theorem conditionScore_eq_spec (g : GraphState) (conds : List String)
    (t : TrialNode)
    (h : ∀ c ∈ g.conditions, c.nameNormalized = some (strLower c.name)) :
    conditionScore g conds t = specConditionScore g conds t := by
  unfold conditionScore specConditionScore
  by_cases he : conds.isEmpty
  · simp [he]
  · simp only [he, if_neg, Bool.false_eq_true, not_false_iff]
    have : g.conditions.filter (fun c =>
        g.treats.contains (t.nctId, c.name) && conditionMatches conds c)
        = g.conditions.filter (fun c =>
        g.treats.contains (t.nctId, c.name)
          && (conds.map strLower).contains (strLower c.name)) := by
      apply List.filter_congr
      intro c hc
      rw [conditionMatches_eq_ci conds c (h c hc)]
    rw [this]

/-- The location term (`count(DISTINCT l) * 5`) equals the spec-side
"5 if located there" term when location ids are unique. -/
theorem locationScore_eq_spec (g : GraphState) (loc : Option String)
    (t : TrialNode)
    (h : (g.locations.map (fun l => l.locationId)).Nodup) :
    locationScore g loc t = specLocationScore g loc t := by
  unfold locationScore specLocationScore
  by_cases ht : strTruthy loc = true
  · simp only [ht, if_true]
    have hle : (g.locations.filter (fun l =>
        l.locationId == pyStr loc
          && g.locatedIn.contains (t.nctId, l.locationId))).length ≤ 1 :=
      length_filter_keyed_le_one (fun l => l.locationId)
        (fun l => g.locatedIn.contains (t.nctId, l.locationId)) (pyStr loc)
        g.locations h
    by_cases hany : g.locations.any (fun l =>
        l.locationId == pyStr loc
          && g.locatedIn.contains (t.nctId, l.locationId)) = true
    · obtain ⟨x, hx, hpx⟩ := List.any_eq_true.mp hany
      have hmem : x ∈ g.locations.filter (fun l =>
          l.locationId == pyStr loc
            && g.locatedIn.contains (t.nctId, l.locationId)) :=
        List.mem_filter.mpr ⟨hx, hpx⟩
      have hge : 1 ≤ (g.locations.filter (fun l =>
          l.locationId == pyStr loc
            && g.locatedIn.contains (t.nctId, l.locationId))).length :=
        List.length_pos.mpr (List.ne_nil_of_mem hmem)
      have hone := le_antisymm hle hge
      rw [hone, if_pos hany]
    · have hnil : g.locations.filter (fun l =>
          l.locationId == pyStr loc
            && g.locatedIn.contains (t.nctId, l.locationId)) = [] := by
        rw [List.filter_eq_nil_iff]
        intro x hx hpx
        exact hany (List.any_eq_true.mpr ⟨x, hx, hpx⟩)
      rw [hnil, if_neg hany]
      simp
  · simp only [Bool.not_eq_true] at ht
    simp [ht]

/-- At most one element carries a given key when keys are pairwise
distinct. -/
theorem length_filter_key_le_one {α β : Type} [DecidableEq β] (f : α → β)
    (v : β) :
    ∀ l : List α, (l.map f).Nodup → (l.filter (fun x => f x == v)).length ≤ 1 := by
  intro l
  induction l with
  | nil => intro _; simp
  | cons a l ih =>
    intro h
    rw [List.map_cons, List.nodup_cons] at h
    rw [List.filter_cons]
    by_cases ha : (f a == v) = true
    · rw [if_pos ha]
      have hfa : f a = v := beq_iff_eq.mp ha
      have hnil : l.filter (fun x => f x == v) = [] := by
        rw [List.filter_eq_nil_iff]
        intro x hx hpx
        have hmem : f x ∈ List.map f l := List.mem_map_of_mem f hx
        rw [beq_iff_eq.mp hpx, ← hfa] at hmem
        exact h.1 hmem
      rw [hnil]
      simp
    · rw [if_neg ha]
      exact ih h.2

/-- Replacing every key-`v` element of a list by a key-`v` element `new`:
the key-`v` fragment becomes copies of `new`. -/
theorem filter_update_self {α β : Type} [DecidableEq β] (f : α → β) (v : β)
    (new : α) (hnew : f new = v) :
    ∀ l : List α,
      (l.map (fun x => if f x == v then new else x)).filter (fun x => f x == v)
        = (l.filter (fun x => f x == v)).map (fun _ => new) := by
  intro l
  have hbn : (f new == v) = true := beq_iff_eq.mpr hnew
  induction l with
  | nil => simp
  | cons a l ih =>
    by_cases ha : (f a == v) = true
    · simp only [List.map_cons, if_pos ha, List.filter_cons, ha, hbn, if_true,
        List.map_cons]
      rw [ih]
    · simp only [List.map_cons, if_neg ha, List.filter_cons, ha,
        Bool.false_eq_true, if_false]
      rw [ih]

/-- Replacing key-`v` elements leaves the key-`w` fragment (with `w ≠ v`)
unchanged. -/
theorem filter_update_ne {α β : Type} [DecidableEq β] (f : α → β) (v w : β)
    (new : α) (hnew : f new = v) (hw : w ≠ v) :
    ∀ l : List α,
      (l.map (fun x => if f x == v then new else x)).filter (fun x => f x == w)
        = l.filter (fun x => f x == w) := by
  intro l
  have hbn : (f new == w) = false := by
    rw [beq_eq_false_iff_ne, hnew]
    exact fun hh => hw hh.symm
  induction l with
  | nil => simp
  | cons a l ih =>
    by_cases ha : (f a == v) = true
    · have haw : (f a == w) = false := by
        rw [beq_eq_false_iff_ne, beq_iff_eq.mp ha]
        exact fun hh => hw hh.symm
      simp only [List.map_cons, if_pos ha, List.filter_cons, hbn, haw,
        Bool.false_eq_true, if_false]
      rw [ih]
    · simp only [List.map_cons, if_neg ha, List.filter_cons]
      rw [ih]

/-- The key-preserving update leaves the key sequence of the list intact. -/
theorem map_keys_update {α β : Type} [DecidableEq β] (f : α → β) (v : β)
    (new : α) (hnew : f new = v) :
    ∀ l : List α,
      (l.map (fun x => if f x == v then new else x)).map f = l.map f := by
  intro l
  induction l with
  | nil => simp
  | cons a l ih =>
    by_cases ha : (f a == v) = true
    · simp only [List.map_cons, if_pos ha, ih, hnew]
      rw [beq_iff_eq.mp ha]
    · simp only [List.map_cons, if_neg ha, ih]

/-- The `MERGE`-style keyed upsert (update matches if any, else append) ends
with exactly one key-`v` element, given unique keys. -/
theorem keyed_upsert_count_self {α β : Type} [DecidableEq β] (f : α → β)
    (v : β) (new : α) (hnew : f new = v) (l : List α)
    (h : (l.map f).Nodup) :
    (((if l.any (fun x => f x == v) then
        l.map (fun x => if f x == v then new else x)
      else l ++ [new]).filter (fun x => f x == v)).length = 1) := by
  by_cases hany : l.any (fun x => f x == v) = true
  · rw [if_pos hany, filter_update_self f v new hnew l, List.length_map]
    obtain ⟨x, hx, hpx⟩ := List.any_eq_true.mp hany
    have hge : 1 ≤ (l.filter (fun x => f x == v)).length :=
      List.length_pos.mpr (List.ne_nil_of_mem (List.mem_filter.mpr ⟨hx, hpx⟩))
    exact le_antisymm (length_filter_key_le_one f v l h) hge
  · rw [if_neg hany, List.filter_append]
    have hnil : l.filter (fun x => f x == v) = [] := by
      rw [List.filter_eq_nil_iff]
      intro x hx hpx
      exact hany (List.any_eq_true.mpr ⟨x, hx, hpx⟩)
    have hbn : (f new == v) = true := beq_iff_eq.mpr hnew
    simp [hnil, hbn]

/-- The keyed upsert leaves every other key's fragment unchanged. -/
theorem keyed_upsert_filter_ne {α β : Type} [DecidableEq β] (f : α → β)
    (v w : β) (new : α) (hnew : f new = v) (hw : w ≠ v) (l : List α) :
    ((if l.any (fun x => f x == v) then
        l.map (fun x => if f x == v then new else x)
      else l ++ [new]).filter (fun x => f x == w))
      = l.filter (fun x => f x == w) := by
  by_cases hany : l.any (fun x => f x == v) = true
  · rw [if_pos hany, filter_update_ne f v w new hnew hw l]
  · rw [if_neg hany, List.filter_append]
    have hbn : (f new == w) = false := by
      rw [beq_eq_false_iff_ne, hnew]
      exact fun hh => hw hh.symm
    simp [hbn]

/-- The keyed upsert preserves key uniqueness. -/
theorem keyed_upsert_nodup {α β : Type} [DecidableEq β] (f : α → β)
    (v : β) (new : α) (hnew : f new = v) (l : List α)
    (h : (l.map f).Nodup) :
    (((if l.any (fun x => f x == v) then
        l.map (fun x => if f x == v then new else x)
      else l ++ [new]).map f).Nodup) := by
  by_cases hany : l.any (fun x => f x == v) = true
  · rw [if_pos hany, map_keys_update f v new hnew l]
    exact h
  · rw [if_neg hany, List.map_append, List.map_cons, List.map_nil]
    have hv : v ∉ l.map f := by
      intro hmem
      obtain ⟨x, hx, hfx⟩ := List.mem_map.mp hmem
      exact hany (List.any_eq_true.mpr ⟨x, hx, beq_iff_eq.mpr hfx⟩)
    have hperm : (l.map f ++ [f new]).Perm (f new :: l.map f) :=
      List.perm_append_singleton _ _
    rw [hperm.nodup_iff, List.nodup_cons, hnew]
    exact ⟨hv, h⟩

/-- Every key-`v` element after the keyed upsert is the upserted element. -/
theorem keyed_upsert_mem_self {α β : Type} [DecidableEq β] (f : α → β)
    (v : β) (new : α) (_hnew : f new = v) (l : List α) :
    ∀ x ∈ (if l.any (fun x => f x == v) then
        l.map (fun x => if f x == v then new else x)
      else l ++ [new]), f x = v → x = new := by
  by_cases hany : l.any (fun x => f x == v) = true
  · rw [if_pos hany]
    intro x hx hfx
    obtain ⟨y, hy, hxy⟩ := List.mem_map.mp hx
    by_cases hyv : (f y == v) = true
    · rw [if_pos hyv] at hxy
      exact hxy.symm
    · rw [if_neg hyv] at hxy
      exact absurd (beq_iff_eq.mpr (hxy ▸ hfx)) hyv
  · rw [if_neg hany]
    intro x hx hfx
    rcases List.mem_append.mp hx with hmem | hmem
    · have hcontra : l.any (fun y => f y == v) = true :=
        List.any_eq_true.mpr ⟨x, hmem, beq_iff_eq.mpr hfx⟩
      exact absurd hcontra hany
    · exact List.mem_singleton.mp hmem

/-- Every element of another key after the keyed upsert was already in the
list. -/
theorem keyed_upsert_mem_other {α β : Type} [DecidableEq β] (f : α → β)
    (v : β) (new : α) (hnew : f new = v) (l : List α) :
    ∀ x ∈ (if l.any (fun x => f x == v) then
        l.map (fun x => if f x == v then new else x)
      else l ++ [new]), f x ≠ v → x ∈ l := by
  by_cases hany : l.any (fun x => f x == v) = true
  · rw [if_pos hany]
    intro x hx hfx
    obtain ⟨y, hy, hxy⟩ := List.mem_map.mp hx
    by_cases hyv : (f y == v) = true
    · rw [if_pos hyv] at hxy
      exact absurd (hxy ▸ hnew) hfx
    · rw [if_neg hyv] at hxy
      exact hxy ▸ hy
  · rw [if_neg hany]
    intro x hx hfx
    rcases List.mem_append.mp hx with hmem | hmem
    · exact hmem
    · exact absurd (List.mem_singleton.mp hmem ▸ hnew) hfx

/-- `create_condition_node` in keyed-upsert shape. -/
theorem create_condition_node_conditions (g : GraphState) (n : String)
    (cat : Option String) :
    (create_condition_node g n cat).conditions
      = (if g.conditions.any (fun c => c.name == n) then
          g.conditions.map (fun c =>
            if c.name == n then ⟨n, cat, some (strLower n)⟩ else c)
        else g.conditions ++ [⟨n, cat, some (strLower n)⟩]) := by
  unfold create_condition_node
  split <;> rfl

/-- `create_location_node` in keyed-upsert shape. -/
theorem create_location_node_locations (g : GraphState) (city : String)
    (state country : Option String) :
    (create_location_node g city state country).locations
      = (if g.locations.any
            (fun l => l.locationId == locationKey city state country) then
          g.locations.map (fun l =>
            if l.locationId == locationKey city state country then
              ⟨locationKey city state country, city, state, country⟩
            else l)
        else g.locations
          ++ [⟨locationKey city state country, city, state, country⟩]) := by
  unfold create_location_node
  split <;> rfl


/-- C1: `find_matching_trials`, for every requested condition list, optional
location id, status and limit, on every graph satisfying the store's
normalization invariant (every Condition node's `nameNormalized` is the
lowercase display name) and location-id uniqueness: it considers only
trials whose status equals the given status; each candidate's score is 10
times the number of distinct conditions it treats that case-insensitively
match a requested condition (0 for an empty request list) plus 5 if the
candidate is located at the exact given location identity (0 when no
location is given); score-0 candidates are excluded; the rest are sorted by
score descending and truncated to `limit`. -/
theorem find_matching_trials_correct (g : GraphState) (conds : List String)
    (loc : Option String) (status : String) (limit : Nat)
    (hnorm : ∀ c ∈ g.conditions, c.nameNormalized = some (strLower c.name))
    (hlocs : (g.locations.map (fun l => l.locationId)).Nodup) :
    find_matching_trials g conds loc status limit =
      findMatchingTrialsSpec g conds loc status limit := by
  unfold find_matching_trials findMatchingTrialsSpec
  have hfun : (fun t : TrialNode => MatchRow.mk t.nctId t.title t.status t.phase
      (conditionScore g conds t + locationScore g loc t))
      = (fun t : TrialNode => MatchRow.mk t.nctId t.title t.status t.phase
      (specConditionScore g conds t + specLocationScore g loc t)) := by
    funext t
    rw [conditionScore_eq_spec g conds t hnorm, locationScore_eq_spec g loc t hlocs]
  rw [hfun]

/-- Witness for C1: the invariant hypotheses hold on the example graph, and
the theorem applies; the trial matching 2 of 3 requested conditions plus
the requested location scores 25, as the spec's formula demands. -/
theorem find_matching_trials_correct_witness :
    (∀ c ∈ exampleGraphMatch.conditions,
        c.nameNormalized = some (strLower c.name))
    ∧ (exampleGraphMatch.locations.map (fun l => l.locationId)).Nodup
    ∧ find_matching_trials exampleGraphMatch ["diabetes", "hypertension", "asthma"]
        (some "Boston, MA") "RECRUITING" 20
      = findMatchingTrialsSpec exampleGraphMatch
        ["diabetes", "hypertension", "asthma"] (some "Boston, MA") "RECRUITING" 20
    ∧ findMatchingTrialsSpec exampleGraphMatch
        ["diabetes", "hypertension", "asthma"] (some "Boston, MA") "RECRUITING" 20
      = [MatchRow.mk "NCT001" "Trial One" "RECRUITING" ["PHASE2"] 25] :=
  ⟨by decide, by decide,
   find_matching_trials_correct exampleGraphMatch
     ["diabetes", "hypertension", "asthma"] (some "Boston, MA") "RECRUITING" 20
     (by decide) (by decide),
   by decide⟩

/-- C6 counterexample: `MERGE (c:Condition {name})` keys on the exact
display name, so upserting `'Diabetes'` and then `'DIABETES'` leaves TWO
Condition nodes whose names are case-insensitively equal — not the single
node the claim demands (each does carry the lowercase normalized form). -/
theorem condition_case_uniqueness_counterexample :
    (condCaseGraph.conditions.filter
        (fun c => strLower c.name == "diabetes")).length = 2
    ∧ condCaseGraph.conditions
      = [ConditionNode.mk "Diabetes" Option.none (some "diabetes"),
         ConditionNode.mk "DIABETES" Option.none (some "diabetes")] := by
  decide

/-- C6 (amended): Condition node uniqueness is case-SENSITIVE on the display
name: on a graph with unique condition names, two upserts whose names
differ only in letter case leave exactly one node per exact name (hence two
distinct nodes), every such node stores the lowercase normalized form
alongside the display name, and repeated upserts of the identical name
leave exactly one node. -/
theorem condition_upserts_case_sensitive (g : GraphState) (n1 n2 : String)
    (cat1 cat2 cat3 : Option String)
    (hci : strLower n1 = strLower n2) (hne : n1 ≠ n2)
    (hnodup : (g.conditions.map (fun c => c.name)).Nodup) :
    (((create_condition_node (create_condition_node g n1 cat1) n2 cat2).conditions.filter
        (fun c => c.name == n1)).length = 1
      ∧ ((create_condition_node (create_condition_node g n1 cat1) n2 cat2).conditions.filter
        (fun c => c.name == n2)).length = 1)
    ∧ (∀ c ∈ (create_condition_node (create_condition_node g n1 cat1) n2 cat2).conditions,
        c.name = n1 ∨ c.name = n2 → c.nameNormalized = some (strLower n1))
    ∧ ((create_condition_node (create_condition_node g n1 cat1) n1 cat3).conditions.filter
        (fun c => c.name == n1)).length = 1 := by
  have hnodup1 : ((create_condition_node g n1 cat1).conditions.map
      (fun c => c.name)).Nodup := by
    rw [create_condition_node_conditions]
    exact keyed_upsert_nodup (fun c => c.name) n1
      ⟨n1, cat1, some (strLower n1)⟩ rfl g.conditions hnodup
  have hcount1 : ((create_condition_node g n1 cat1).conditions.filter
      (fun c => c.name == n1)).length = 1 := by
    rw [create_condition_node_conditions]
    exact keyed_upsert_count_self (fun c => c.name) n1
      ⟨n1, cat1, some (strLower n1)⟩ rfl g.conditions hnodup
  refine ⟨⟨?_, ?_⟩, ?_, ?_⟩
  · rw [create_condition_node_conditions (create_condition_node g n1 cat1) n2 cat2]
    rw [keyed_upsert_filter_ne (fun c => c.name) n2 n1
      ⟨n2, cat2, some (strLower n2)⟩ rfl hne
      (create_condition_node g n1 cat1).conditions]
    exact hcount1
  · rw [create_condition_node_conditions (create_condition_node g n1 cat1) n2 cat2]
    exact keyed_upsert_count_self (fun c => c.name) n2
      ⟨n2, cat2, some (strLower n2)⟩ rfl
      (create_condition_node g n1 cat1).conditions hnodup1
  · intro c hc hname
    rcases hname with h1 | h2
    · have hcn2 : c.name ≠ n2 := fun hh => hne (h1 ▸ hh)
      have hmem1 : c ∈ (create_condition_node g n1 cat1).conditions := by
        rw [create_condition_node_conditions
          (create_condition_node g n1 cat1) n2 cat2] at hc
        exact keyed_upsert_mem_other (fun c => c.name) n2
          ⟨n2, cat2, some (strLower n2)⟩ rfl
          (create_condition_node g n1 cat1).conditions c hc hcn2
      have heq : c = ⟨n1, cat1, some (strLower n1)⟩ := by
        rw [create_condition_node_conditions g n1 cat1] at hmem1
        exact keyed_upsert_mem_self (fun c => c.name) n1
          ⟨n1, cat1, some (strLower n1)⟩ rfl g.conditions c hmem1 h1
      rw [heq]
    · have heq : c = ⟨n2, cat2, some (strLower n2)⟩ := by
        rw [create_condition_node_conditions
          (create_condition_node g n1 cat1) n2 cat2] at hc
        exact keyed_upsert_mem_self (fun c => c.name) n2
          ⟨n2, cat2, some (strLower n2)⟩ rfl
          (create_condition_node g n1 cat1).conditions c hc h2
      rw [heq, hci]
  · rw [create_condition_node_conditions (create_condition_node g n1 cat1) n1 cat3]
    exact keyed_upsert_count_self (fun c => c.name) n1
      ⟨n1, cat3, some (strLower n1)⟩ rfl
      (create_condition_node g n1 cat1).conditions hnodup1

/-- Witness for the amended C6: `'Diabetes'` then `'DIABETES'` on the empty
graph — one node per exact name, both normalized to `"diabetes"`, and a
repeated `'Diabetes'` upsert stays at one node. -/
theorem condition_upserts_case_sensitive_witness :
    (strLower "Diabetes" = strLower "DIABETES" ∧ "Diabetes" ≠ "DIABETES"
      ∧ (GraphState.empty.conditions.map (fun c => c.name)).Nodup)
    ∧ (((condCaseGraph.conditions.filter
          (fun c => c.name == "Diabetes")).length = 1
        ∧ (condCaseGraph.conditions.filter
          (fun c => c.name == "DIABETES")).length = 1)
      ∧ (∀ c ∈ condCaseGraph.conditions,
          c.name = "Diabetes" ∨ c.name = "DIABETES" →
            c.nameNormalized = some (strLower "Diabetes"))
      ∧ ((create_condition_node (create_condition_node GraphState.empty
            "Diabetes" Option.none) "Diabetes" Option.none).conditions.filter
            (fun c => c.name == "Diabetes")).length = 1) :=
  ⟨⟨by decide, by decide, by decide⟩,
   condition_upserts_case_sensitive GraphState.empty "Diabetes" "DIABETES"
     Option.none Option.none Option.none (by decide) (by decide) (by decide)⟩

/-- The composite identifier is the city joined to the region half. -/
theorem locationKey_eq (city : String) (state country : Option String) :
    locationKey city state country = (city ++ ", ") ++ regionOf state country := by
  unfold locationKey regionOf
  by_cases h : strTruthy state = true
  · rw [if_pos h, if_pos h, String.append_assoc]
  · rw [if_neg h, if_neg h, String.append_assoc]

/-- String append is left-cancellative. -/
theorem string_append_left_cancel {a b c : String} (h : a ++ b = a ++ c) :
    b = c := by
  apply String.ext
  have hd := congrArg String.data h
  rw [String.data_append, String.data_append] at hd
  exact List.append_cancel_left hd

/-- Distinct region halves give distinct composite identifiers. -/
theorem locationKey_ne_of_region_ne (city : String)
    (s1 c1 s2 c2 : Option String) (h : regionOf s1 c1 ≠ regionOf s2 c2) :
    locationKey city s1 c1 ≠ locationKey city s2 c2 := by
  rw [locationKey_eq, locationKey_eq]
  intro heq
  exact h (string_append_left_cancel heq)

/-- C9: Location identity is the composite of city plus (state or country):
on a graph with unique location ids, two upserts with the same city but a
different state/country identity leave exactly one Location node under each
of the two (distinct) composite identifiers — two distinct nodes — and
repeated upserts of one identical composite identity leave exactly one
node for it. -/
theorem location_identity_composite (g : GraphState) (city : String)
    (s1 c1 s2 c2 : Option String)
    (hreg : regionOf s1 c1 ≠ regionOf s2 c2)
    (hnodup : (g.locations.map (fun l => l.locationId)).Nodup) :
    (((create_location_node (create_location_node g city s1 c1) city s2 c2).locations.filter
        (fun l => l.locationId == locationKey city s1 c1)).length = 1
      ∧ ((create_location_node (create_location_node g city s1 c1) city s2 c2).locations.filter
        (fun l => l.locationId == locationKey city s2 c2)).length = 1
      ∧ locationKey city s1 c1 ≠ locationKey city s2 c2)
    ∧ ∀ s3 c3,
      ((create_location_node (create_location_node g city s3 c3) city s3 c3).locations.filter
        (fun l => l.locationId == locationKey city s3 c3)).length = 1 := by
  have hkey := locationKey_ne_of_region_ne city s1 c1 s2 c2 hreg
  have hnodup1 : ((create_location_node g city s1 c1).locations.map
      (fun l => l.locationId)).Nodup := by
    rw [create_location_node_locations]
    exact keyed_upsert_nodup (fun l => l.locationId) (locationKey city s1 c1)
      ⟨locationKey city s1 c1, city, s1, c1⟩ rfl g.locations hnodup
  refine ⟨⟨?_, ?_, hkey⟩, ?_⟩
  · rw [create_location_node_locations (create_location_node g city s1 c1) city s2 c2]
    rw [keyed_upsert_filter_ne (fun l => l.locationId) (locationKey city s2 c2)
      (locationKey city s1 c1) ⟨locationKey city s2 c2, city, s2, c2⟩ rfl hkey
      (create_location_node g city s1 c1).locations]
    rw [create_location_node_locations g city s1 c1]
    exact keyed_upsert_count_self (fun l => l.locationId) (locationKey city s1 c1)
      ⟨locationKey city s1 c1, city, s1, c1⟩ rfl g.locations hnodup
  · rw [create_location_node_locations (create_location_node g city s1 c1) city s2 c2]
    exact keyed_upsert_count_self (fun l => l.locationId) (locationKey city s2 c2)
      ⟨locationKey city s2 c2, city, s2, c2⟩ rfl
      (create_location_node g city s1 c1).locations hnodup1
  · intro s3 c3
    have hnodup3 : ((create_location_node g city s3 c3).locations.map
        (fun l => l.locationId)).Nodup := by
      rw [create_location_node_locations]
      exact keyed_upsert_nodup (fun l => l.locationId) (locationKey city s3 c3)
        ⟨locationKey city s3 c3, city, s3, c3⟩ rfl g.locations hnodup
    rw [create_location_node_locations (create_location_node g city s3 c3) city s3 c3]
    exact keyed_upsert_count_self (fun l => l.locationId) (locationKey city s3 c3)
      ⟨locationKey city s3 c3, city, s3, c3⟩ rfl
      (create_location_node g city s3 c3).locations hnodup3

/-- Witness for C9: Springfield, IL vs Springfield, MO on the empty graph —
one node per composite identity, the identities distinct; repeating
Springfield, IL stays at one node. -/
theorem location_identity_composite_witness :
    (regionOf (some "IL") Option.none ≠ regionOf (some "MO") Option.none
      ∧ (GraphState.empty.locations.map (fun l => l.locationId)).Nodup)
    ∧ ((((create_location_node (create_location_node GraphState.empty
          "Springfield" (some "IL") Option.none) "Springfield" (some "MO")
          Option.none).locations.filter
          (fun l => l.locationId == locationKey "Springfield" (some "IL")
            Option.none)).length = 1
        ∧ ((create_location_node (create_location_node GraphState.empty
          "Springfield" (some "IL") Option.none) "Springfield" (some "MO")
          Option.none).locations.filter
          (fun l => l.locationId == locationKey "Springfield" (some "MO")
            Option.none)).length = 1
        ∧ locationKey "Springfield" (some "IL") Option.none
            ≠ locationKey "Springfield" (some "MO") Option.none)
      ∧ ∀ s3 c3,
        ((create_location_node (create_location_node GraphState.empty "Springfield"
            s3 c3) "Springfield" s3 c3).locations.filter
          (fun l => l.locationId == locationKey "Springfield" s3 c3)).length = 1) :=
  ⟨⟨by decide, by decide⟩,
   location_identity_composite GraphState.empty "Springfield" (some "IL")
     Option.none (some "MO") Option.none (by decide) (by decide)⟩


/-- C7: the recommendation query does NOT exclude saved trials.  The
`OPTIONAL MATCH (p)-[:SAVED_TRIAL]->(saved) WHERE t <> saved OR saved IS
NULL` clause (commented "Exclude already saved trials") can never remove a
row — `OPTIONAL MATCH` only binds `saved` (or null) — so a recruiting trial
the patient has already saved is still recommended, with score 1 here. -/
theorem saved_trial_not_excluded :
    get_patient_recommendations savedTrialGraph 1 10
      = [RecRow.mk (some "NCT001") (some "Trial One") (some "RECRUITING")
          (some []) ["Diabetes"] 1]
    ∧ (1, "NCT001") ∈ savedTrialGraph.savedTrial := by
  decide


/-- C8: a trial sharing ONLY a location with the reference trial is never
returned by `find_related_trials`: the candidate variable `t2` is bound
only through the shared-condition pattern, so NCT002 (same location, no
shared condition) is missing even though the claimed scoring
`3×|sharedConditions| + |sharedLocations|` would give it score 1. -/
theorem location_only_related_trial_missing :
    find_related_trials locationOnlyGraph "NCT001" 10 = []
    ∧ ("NCT001", "Boston, MA") ∈ locationOnlyGraph.locatedIn
    ∧ ("NCT002", "Boston, MA") ∈ locationOnlyGraph.locatedIn := by
  decide

/-- After erasing by key, no element of a unique-key list carries the key. -/
theorem eraseP_key_not_mem {α β : Type} [DecidableEq β] (f : α → β) (v : β) :
    ∀ l : List α, (l.map f).Nodup →
      ∀ x ∈ l.eraseP (fun y => f y == v), f x ≠ v := by
  intro l
  induction l with
  | nil => intro _ x hx; simp at hx
  | cons a l ih =>
    intro h x hx
    rw [List.map_cons, List.nodup_cons] at h
    rw [List.eraseP_cons] at hx
    by_cases ha : (f a == v) = true
    · rw [ha, cond_true] at hx
      intro hfx
      have hmem : f x ∈ List.map f l := List.mem_map_of_mem f hx
      rw [hfx, ← beq_iff_eq.mp ha] at hmem
      exact h.1 hmem
    · rw [Bool.not_eq_true] at ha
      rw [ha, cond_false] at hx
      rcases List.mem_cons.mp hx with hxa | hxl
      · rw [hxa]
        intro hfa
        exact absurd (beq_iff_eq.mpr hfa) (by rw [ha]; simp)
      · exact ih h.2 x hxl


/-- C3 counterexample: a search read one second past the expiry window
treats the stored document as a miss (empty result) but does NOT remove it:
the store still holds the expired document afterwards, because
`search_cached_trials` only filters on `cachedAt` and performs no delete
(only `get_cached_trial` deletes lazily). -/
theorem search_read_does_not_remove_expired :
    (search_cached_trials [expiredDoc] (cacheWindow + 1) Option.none
      Option.none Option.none 20).1 = []
    ∧ (search_cached_trials [expiredDoc] (cacheWindow + 1) Option.none
      Option.none Option.none 20).2 = [expiredDoc]
    ∧ cacheWindow + 1 > expiredDoc.cachedAt + cacheWindow := by
  decide

/-- C3 (amended): lazy expiry, for a store with unique identifiers holding
`doc` (cached at time T, window W = 7 days): the single-document read
strictly before `T+W` returns the document and leaves the store unchanged;
strictly after `T+W` it misses and removes the document from the store.
The search read before `T+W` (with wildcard filters and sufficient limit)
returns the document; after `T+W` — under any filters — it misses the
document but leaves the store unchanged (no removal). -/
theorem cache_lazy_expiry_behavior (cs : CacheStore) (doc : CacheDoc)
    (nowBefore nowAfter : Int) (cond loc stat : Option String) (limit : Nat)
    (hb : nowBefore < doc.cachedAt + cacheWindow)
    (ha : nowAfter > doc.cachedAt + cacheWindow)
    (hfind : cs.find? (fun d => d.nctId == doc.nctId) = some doc)
    (hnodup : (cs.map (fun d => d.nctId)).Nodup)
    (hc : strTruthy cond = false) (hl : strTruthy loc = false)
    (hs : strTruthy stat = false) (hlim : cs.length ≤ limit) :
    get_cached_trial cs nowBefore doc.nctId = (some doc, cs)
    ∧ (get_cached_trial cs nowAfter doc.nctId).1 = Option.none
    ∧ (∀ d ∈ (get_cached_trial cs nowAfter doc.nctId).2, d.nctId ≠ doc.nctId)
    ∧ doc ∈ (search_cached_trials cs nowBefore cond loc stat limit).1
    ∧ (∀ cond2 loc2 stat2 (limit2 : Nat),
        doc ∉ (search_cached_trials cs nowAfter cond2 loc2 stat2 limit2).1
        ∧ (search_cached_trials cs nowAfter cond2 loc2 stat2 limit2).2 = cs) := by
  refine ⟨?_, ?_, ?_, ?_, ?_⟩
  · unfold get_cached_trial
    rw [hfind]
    dsimp only
    rw [if_neg (by omega)]
  · unfold get_cached_trial
    rw [hfind]
    dsimp only
    rw [if_pos (by omega)]
  · unfold get_cached_trial
    rw [hfind]
    dsimp only
    rw [if_pos (by omega)]
    intro d hd
    exact eraseP_key_not_mem (fun d => d.nctId) doc.nctId cs hnodup d hd
  · unfold search_cached_trials
    have hmem : doc ∈ cs := List.mem_of_find?_eq_some hfind
    have hpred : searchPredicate nowBefore cond loc stat doc = true := by
      unfold searchPredicate
      rw [hc, hl, hs]
      simp only [Bool.false_eq_true, if_false, Bool.true_and]
      exact decide_eq_true (by omega)
    have hfmem : doc ∈ cs.filter (searchPredicate nowBefore cond loc stat) :=
      List.mem_filter.mpr ⟨hmem, hpred⟩
    have hlen : (cs.filter (searchPredicate nowBefore cond loc stat)).length
        ≤ limit := le_trans (List.length_filter_le _ _) hlim
    rw [List.take_of_length_le hlen]
    exact hfmem
  · intro cond2 loc2 stat2 limit2
    constructor
    · intro hin
      have hfm : doc ∈ cs.filter (searchPredicate nowAfter cond2 loc2 stat2) :=
        List.mem_of_mem_take hin
      have hpred := (List.mem_filter.mp hfm).2
      unfold searchPredicate at hpred
      have hdate : decide (doc.cachedAt ≥ nowAfter - cacheWindow) = true :=
        ((Bool.and_eq_true _ _).mp hpred).2
      have := of_decide_eq_true hdate
      omega
    · rfl

/-- Witness for the amended C3: the expired document in a one-element store,
read one second before and one second after expiry. -/
theorem cache_lazy_expiry_behavior_witness :
    ((1 : Int) < expiredDoc.cachedAt + cacheWindow
      ∧ cacheWindow + 1 > expiredDoc.cachedAt + cacheWindow
      ∧ [expiredDoc].find? (fun d => d.nctId == expiredDoc.nctId)
          = some expiredDoc
      ∧ ([expiredDoc].map (fun d => d.nctId)).Nodup
      ∧ ([expiredDoc] : CacheStore).length ≤ 20)
    ∧ (get_cached_trial [expiredDoc] 1 expiredDoc.nctId
        = (some expiredDoc, [expiredDoc])
      ∧ (get_cached_trial [expiredDoc] (cacheWindow + 1) expiredDoc.nctId).1
        = Option.none
      ∧ (∀ d ∈ (get_cached_trial [expiredDoc] (cacheWindow + 1)
          expiredDoc.nctId).2, d.nctId ≠ expiredDoc.nctId)
      ∧ expiredDoc ∈ (search_cached_trials [expiredDoc] 1 Option.none
          Option.none Option.none 20).1
      ∧ (∀ cond2 loc2 stat2 (limit2 : Nat),
          expiredDoc ∉ (search_cached_trials [expiredDoc] (cacheWindow + 1)
            cond2 loc2 stat2 limit2).1
          ∧ (search_cached_trials [expiredDoc] (cacheWindow + 1)
            cond2 loc2 stat2 limit2).2 = [expiredDoc])) :=
  ⟨⟨by decide, by decide, by decide, by decide, by decide⟩,
   cache_lazy_expiry_behavior [expiredDoc] expiredDoc 1 (cacheWindow + 1)
     Option.none Option.none Option.none 20 (by decide) (by decide) (by decide)
     (by decide) (by decide) (by decide) (by decide) (by decide)⟩

/-- `filterMap` over a list where `f` always hits keeps the length. -/
theorem length_filterMap_of_isSome {α β : Type} (f : α → Option β) :
    ∀ l : List α, (∀ x ∈ l, (f x).isSome) → (l.filterMap f).length = l.length := by
  intro l
  induction l with
  | nil => intro _; simp
  | cons a l ih =>
    intro h
    obtain ⟨b, hb⟩ := Option.isSome_iff_exists.mp (h a (List.mem_cons_self a l))
    rw [List.filterMap_cons, hb, List.length_cons,
      ih (fun x hx => h x (List.mem_cons_of_mem a hx)), List.length_cons]

/-- A well-formed study formats into a row carrying its identifier and a
zero score. -/
theorem formatStudy_of_wellFormed (s : Study) (h : studyWellFormed s = true) :
    ∃ p nct, s.protocolSection = some p ∧ p.nctId = some nct ∧ nct ≠ ""
      ∧ formatStudy s = some (MatchRow.mk nct (p.briefTitle.getD "Unknown Title")
          (p.overallStatus.getD "Unknown") p.phases 0) := by
  unfold studyWellFormed at h
  match hp : s.protocolSection with
  | Option.none => rw [hp] at h; exact absurd h (by simp)
  | some p =>
    rw [hp] at h
    dsimp only at h
    match hn : p.nctId with
    | Option.none => rw [hn] at h; exact absurd h (by simp)
    | some nct =>
      rw [hn] at h
      dsimp only at h
      have hne : nct ≠ "" := of_decide_eq_true h
      refine ⟨p, nct, rfl, hn, hne, ?_⟩
      unfold formatStudy
      rw [hp]
      dsimp only
      rw [hn]
      dsimp only
      rw [if_neg hne]

/-- Every row `formatStudy` produces has score 0. -/
theorem formatStudy_matchScore (s : Study) (m : MatchRow)
    (h : formatStudy s = some m) : m.matchScore = 0 := by
  unfold formatStudy at h
  match hp : s.protocolSection with
  | Option.none => rw [hp] at h; exact absurd h (by simp)
  | some p =>
    rw [hp] at h
    dsimp only at h
    match hn : p.nctId with
    | Option.none => rw [hn] at h; exact absurd h (by simp)
    | some nct =>
      rw [hn] at h
      dsimp only at h
      by_cases hne : nct = ""
      · rw [if_pos hne] at h
        exact absurd h (by simp)
      · rw [if_neg hne] at h
        have := Option.some.inj h
        rw [← this]

/-- `find?` over the key-targeted update finds the new element when the key
was present. -/
theorem find?_map_update_self {α β : Type} [DecidableEq β] (f : α → β)
    (v : β) (new : α) (hnew : f new = v) :
    ∀ l : List α, l.any (fun x => f x == v) = true →
      (l.map (fun x => if f x == v then new else x)).find? (fun x => f x == v)
        = some new := by
  intro l
  induction l with
  | nil => intro h; simp at h
  | cons a l ih =>
    intro h
    by_cases ha : (f a == v) = true
    · rw [List.map_cons, if_pos ha, List.find?_cons]
      have : (f new == v) = true := beq_iff_eq.mpr hnew
      rw [this]
    · rw [List.map_cons, if_neg ha, List.find?_cons]
      have hfa : (f a == v) = false := by rw [Bool.not_eq_true] at ha; exact ha
      rw [hfa]
      have hany : l.any (fun x => f x == v) = true := by
        rcases List.any_eq_true.mp h with ⟨x, hx, hpx⟩
        rcases List.mem_cons.mp hx with hxa | hxl
        · rw [hxa] at hpx; rw [hpx] at hfa; simp at hfa
        · exact List.any_eq_true.mpr ⟨x, hxl, hpx⟩
      exact ih hany

/-- `find?` over a no-match list extended by a matching element. -/
theorem find?_append_singleton {α : Type} (p : α → Bool) (x : α)
    (hx : p x = true) :
    ∀ l : List α, (∀ y ∈ l, p y = false) → (l ++ [x]).find? p = some x := by
  intro l
  induction l with
  | nil => intro _; rw [List.nil_append, List.find?_cons, hx]
  | cons a l ih =>
    intro h
    rw [List.cons_append, List.find?_cons, h a (List.mem_cons_self a l)]
    exact ih (fun y hy => h y (List.mem_cons_of_mem a hy))

/-- The upsert leaves the upserted document findable under its id. -/
theorem mongoUpsert_find_self (cs : CacheStore) (doc : CacheDoc) :
    (mongoUpsert cs doc).find? (fun d => d.nctId == doc.nctId) = some doc := by
  unfold mongoUpsert
  by_cases hany : (cs : List CacheDoc).any (fun d => d.nctId == doc.nctId) = true
  · rw [if_pos hany]
    exact find?_map_update_self (fun d => d.nctId) doc.nctId doc rfl cs hany
  · rw [if_neg hany]
    refine find?_append_singleton _ doc (by simp) cs (fun y hy => ?_)
    by_cases hyv : (y.nctId == doc.nctId) = true
    · exact absurd (List.any_eq_true.mpr ⟨y, hy, hyv⟩) hany
    · rw [Bool.not_eq_true] at hyv; exact hyv


/-- C2: fallback gating.  If the graph query returns at least one result,
the match returns exactly those results with provenance `graph` and their
computed scores, and the origin registry is never contacted.  If the graph
query returns empty, the origin is contacted exactly once — with the
AND-joined query whose condition part OR-combines the requested conditions
— and the fetched (well-formed) records are returned, each formatted with
score 0, under provenance `api_fallback`. -/
theorem smart_match_fallback_gating (o : FailureOracle) (origin : OriginClient)
    (g : GraphState) (cs : CacheStore) (now : Int) (conds : List String)
    (loc : Option String) (d : ApiData)
    (hwf : ∀ s ∈ d.studies.getD [], studyWellFormed s = true) :
    (find_matching_trials g conds loc "RECRUITING" 20 ≠ [] →
      (smart_match_trials o origin g cs now conds loc).result
        = .ok (find_matching_trials g conds loc "RECRUITING" 20) "graph"
      ∧ (smart_match_trials o origin g cs now conds loc).requests = [])
    ∧ (find_matching_trials g conds loc "RECRUITING" 20 = [] →
      origin (mkApiRequest conds loc) = .ok d →
        (smart_match_trials o origin g cs now conds loc).requests
          = [mkApiRequest conds loc]
        ∧ (smart_match_trials o origin g cs now conds loc).result
          = .ok ((d.studies.getD []).filterMap formatStudy) "api_fallback"
        ∧ ((d.studies.getD []).filterMap formatStudy).length
          = (d.studies.getD []).length
        ∧ (∀ m ∈ (d.studies.getD []).filterMap formatStudy, m.matchScore = 0))
    ∧ (conds ≠ [] → strTruthy loc = false →
        (mkApiRequest conds loc).queryTerm
          = some ("AREA[ConditionSearch]" ++ String.intercalate " OR " conds)) := by
  refine ⟨?_, ?_, ?_⟩
  · intro hne
    have hpos : (find_matching_trials g conds loc "RECRUITING" 20).length > 0 :=
      List.length_pos.mpr hne
    constructor
    · simp only [smart_match_trials]
      rw [if_pos hpos]
    · simp only [smart_match_trials]
      rw [if_pos hpos]
  · intro hempty horigin
    have hnot : ¬(find_matching_trials g conds loc "RECRUITING" 20).length > 0 := by
      rw [hempty]
      simp
    refine ⟨?_, ?_, ?_, ?_⟩
    · simp only [smart_match_trials]
      rw [if_neg hnot, horigin]
    · simp only [smart_match_trials]
      rw [if_neg hnot, horigin]
    · refine length_filterMap_of_isSome formatStudy _ (fun s hs => ?_)
      obtain ⟨p, nct, _, _, _, hfmt⟩ :=
        formatStudy_of_wellFormed s (hwf s hs)
      rw [hfmt]
      rfl
    · intro m hm
      obtain ⟨s, _, hfs⟩ := List.mem_filterMap.mp hm
      exact formatStudy_matchScore s m hfs
  · intro hconds hloc
    have hng : conds.isEmpty = false := by
      rw [Bool.eq_false_iff]
      intro hh
      exact hconds (List.isEmpty_iff.mp hh)
    have hsingle : String.intercalate " AND "
        ["AREA[ConditionSearch]" ++ String.intercalate " OR " conds]
        = "AREA[ConditionSearch]" ++ String.intercalate " OR " conds := rfl
    simp [mkApiRequest, hng, hloc, hsingle]

/-- Witness for C2, both branches.  On an empty graph with one well-formed
fetched study: exactly one origin request with the OR-combined condition
query, and the study back as a score-0 `api_fallback` row.  On the
populated example graph the graph branch answers with provenance `graph`
and no origin request, even against an origin that would fail. -/
theorem smart_match_fallback_gating_witness :
    (∀ s ∈ stubApiData.studies.getD [], studyWellFormed s = true)
    ∧ ((smart_match_trials FailureOracle.none stubOrigin GraphState.empty []
          0 ["asthma"] Option.none).requests
        = [mkApiRequest ["asthma"] Option.none]
      ∧ (smart_match_trials FailureOracle.none stubOrigin GraphState.empty []
          0 ["asthma"] Option.none).result
        = .ok ((stubApiData.studies.getD []).filterMap formatStudy)
            "api_fallback"
      ∧ ((stubApiData.studies.getD []).filterMap formatStudy).length
        = (stubApiData.studies.getD []).length
      ∧ (∀ m ∈ (stubApiData.studies.getD []).filterMap formatStudy,
          m.matchScore = 0))
    ∧ ((smart_match_trials FailureOracle.none stubOriginErr exampleGraphMatch
          [] 0 ["diabetes"] Option.none).result
        = .ok (find_matching_trials exampleGraphMatch ["diabetes"]
            Option.none "RECRUITING" 20) "graph"
      ∧ (smart_match_trials FailureOracle.none stubOriginErr exampleGraphMatch
          [] 0 ["diabetes"] Option.none).requests = []) :=
  ⟨by decide,
   (smart_match_fallback_gating FailureOracle.none stubOrigin GraphState.empty
     [] 0 ["asthma"] Option.none stubApiData (by decide)).2.1
     (by decide) rfl,
   (smart_match_fallback_gating FailureOracle.none stubOriginErr
     exampleGraphMatch [] 0 ["diabetes"] Option.none stubApiData
     (by decide)).1 (by decide)⟩

/-- C5: when the graph query came back empty, a transport failure of the
origin call fails the whole match — the result is the error, with no
partial or fallback rows — while cache-write and projection failures never
fail the match: with a successful origin call the result is the formatted
fallback list, identical under every failure oracle. -/
theorem smart_match_transport_error (o o2 : FailureOracle)
    (origin : OriginClient) (g : GraphState) (cs : CacheStore) (now : Int)
    (conds : List String) (loc : Option String) (e : String)
    (hempty : find_matching_trials g conds loc "RECRUITING" 20 = [])
    (herr : origin (mkApiRequest conds loc) = .error e) :
    (smart_match_trials o origin g cs now conds loc).result = .err e
    ∧ ((smart_match_trials o origin g cs now conds loc).result).rowsOf = []
    ∧ (∀ (origin2 : OriginClient) (d : ApiData),
        origin2 (mkApiRequest conds loc) = .ok d →
          (smart_match_trials o origin2 g cs now conds loc).result
            = .ok ((d.studies.getD []).filterMap formatStudy) "api_fallback"
          ∧ (smart_match_trials o origin2 g cs now conds loc).result
            = (smart_match_trials o2 origin2 g cs now conds loc).result) := by
  have hnot : ¬(find_matching_trials g conds loc "RECRUITING" 20).length > 0 := by
    rw [hempty]
    simp
  have herr2 : (smart_match_trials o origin g cs now conds loc).result = .err e := by
    simp only [smart_match_trials]
    rw [if_neg hnot, herr]
  refine ⟨herr2, by rw [herr2]; rfl, ?_⟩
  intro origin2 d hok
  have hok2 : ∀ o3 : FailureOracle,
      (smart_match_trials o3 origin2 g cs now conds loc).result
        = .ok ((d.studies.getD []).filterMap formatStudy) "api_fallback" := by
    intro o3
    simp only [smart_match_trials]
    rw [if_neg hnot, hok]
  exact ⟨hok2 o, (hok2 o).trans (hok2 o2).symm⟩

/-- Witness for C5: empty graph, failing origin — the match fails with the
transport error and carries no rows; with the succeeding origin the result
is the same fallback list under the all-healthy and the all-graph-failing
oracles alike. -/
theorem smart_match_transport_error_witness :
    (find_matching_trials GraphState.empty ["asthma"] Option.none
        "RECRUITING" 20 = []
      ∧ stubOriginErr (mkApiRequest ["asthma"] Option.none)
        = .error "connection refused")
    ∧ ((smart_match_trials FailureOracle.none stubOriginErr GraphState.empty
          [] 0 ["asthma"] Option.none).result = .err "connection refused"
      ∧ ((smart_match_trials FailureOracle.none stubOriginErr GraphState.empty
          [] 0 ["asthma"] Option.none).result).rowsOf = []
      ∧ (∀ (origin2 : OriginClient) (d : ApiData),
          origin2 (mkApiRequest ["asthma"] Option.none) = .ok d →
            (smart_match_trials FailureOracle.none origin2 GraphState.empty
              [] 0 ["asthma"] Option.none).result
              = .ok ((d.studies.getD []).filterMap formatStudy) "api_fallback"
            ∧ (smart_match_trials FailureOracle.none origin2 GraphState.empty
              [] 0 ["asthma"] Option.none).result
              = (smart_match_trials allGraphFailOracle origin2 GraphState.empty
              [] 0 ["asthma"] Option.none).result)) :=
  ⟨⟨by decide, rfl⟩,
   smart_match_transport_error FailureOracle.none allGraphFailOracle
     stubOriginErr GraphState.empty [] 0 ["asthma"] Option.none
     "connection refused" (by decide) rfl⟩

/-- C4: failures inside the graph projection are swallowed.  For every cache
document (a record whose identifier extraction succeeds) and EVERY failure
oracle (arbitrary graph-write failures), with the cache write itself
healthy: `cache_trial` still returns success with the document stored
(`sync_trial_to_neo4j` is total and never propagates — had it raised,
`cache_trial`'s handler would have returned `False`), and the record still
appears, by its identifier, in the fallback list of a match that fetched
it. -/
theorem project_failures_swallowed (o : FailureOracle) (s : Study)
    (p : ProtocolSection) (nct : String) (now : Int) (cs : CacheStore)
    (g : GraphState)
    (hp : s.protocolSection = some p) (hn : p.nctId = some nct)
    (hne : nct ≠ "") (hm : o.mongoFails nct = false) :
    cache_trial o s now cs g
      = (true, mongoUpsert cs (mkCacheDoc nct p now),
          (sync_trial_to_neo4j o s g).2)
    ∧ (mongoUpsert cs (mkCacheDoc nct p now)).find?
        (fun d => d.nctId == nct) = some (mkCacheDoc nct p now)
    ∧ (∀ (origin : OriginClient) (g0 : GraphState) (cs0 : CacheStore)
        (conds : List String) (loc : Option String) (d : ApiData),
        find_matching_trials g0 conds loc "RECRUITING" 20 = [] →
        origin (mkApiRequest conds loc) = .ok d →
        s ∈ d.studies.getD [] →
        ∃ m ∈ ((smart_match_trials o origin g0 cs0 now conds loc).result).rowsOf,
          m.nctId = nct) := by
  refine ⟨?_, mongoUpsert_find_self cs (mkCacheDoc nct p now), ?_⟩
  · unfold cache_trial
    rw [hp, Option.getD_some]
    dsimp only
    rw [hn]
    dsimp only
    rw [if_neg hne, hm]
    simp
  · intro origin g0 cs0 conds loc d hempty horigin hmem
    have hnot : ¬(find_matching_trials g0 conds loc "RECRUITING" 20).length > 0 := by
      rw [hempty]
      simp
    have hres : ((smart_match_trials o origin g0 cs0 now conds loc).result).rowsOf
        = (d.studies.getD []).filterMap formatStudy := by
      simp only [smart_match_trials]
      rw [if_neg hnot, horigin]
      rfl
    rw [hres]
    have hfmt : formatStudy s
        = some (MatchRow.mk nct (p.briefTitle.getD "Unknown Title")
            (p.overallStatus.getD "Unknown") p.phases 0) := by
      unfold formatStudy
      rw [hp]
      dsimp only
      rw [hn]
      dsimp only
      rw [if_neg hne]
    exact ⟨MatchRow.mk nct (p.briefTitle.getD "Unknown Title")
      (p.overallStatus.getD "Unknown") p.phases 0,
      List.mem_filterMap.mpr ⟨s, hmem, hfmt⟩, rfl⟩

/-- Witness for C4: the stub record under the oracle where EVERY graph write
raises — cached successfully, findable in the store, and present in the
fallback list of the match that fetched it. -/
theorem project_failures_swallowed_witness :
    (stubStudy.protocolSection = some stubProtocol
      ∧ stubProtocol.nctId = some "NCT777"
      ∧ "NCT777" ≠ ""
      ∧ allGraphFailOracle.mongoFails "NCT777" = false)
    ∧ (cache_trial allGraphFailOracle stubStudy 0 [] GraphState.empty
        = (true, mongoUpsert [] (mkCacheDoc "NCT777" stubProtocol 0),
            (sync_trial_to_neo4j allGraphFailOracle stubStudy GraphState.empty).2)
      ∧ (mongoUpsert [] (mkCacheDoc "NCT777" stubProtocol 0)).find?
          (fun d => d.nctId == "NCT777")
        = some (mkCacheDoc "NCT777" stubProtocol 0)
      ∧ (∀ (origin : OriginClient) (g0 : GraphState) (cs0 : CacheStore)
          (conds : List String) (loc : Option String) (d : ApiData),
          find_matching_trials g0 conds loc "RECRUITING" 20 = [] →
          origin (mkApiRequest conds loc) = .ok d →
          stubStudy ∈ d.studies.getD [] →
          ∃ m ∈ ((smart_match_trials allGraphFailOracle origin g0 cs0 0 conds
            loc).result).rowsOf, m.nctId = "NCT777")) :=
  ⟨⟨rfl, rfl, by decide, rfl⟩,
   project_failures_swallowed allGraphFailOracle stubStudy stubProtocol
     "NCT777" 0 [] GraphState.empty rfl rfl (by decide) rfl⟩


/-- Under the all-healthy oracle the write sequence runs to completion and
is a plain fold of the writes. -/
theorem runSyncOps_none :
    ∀ (steps : List SyncOp) (g : GraphState),
      runSyncOps FailureOracle.none steps g
        = (Option.none, steps.foldl (fun g step => step.apply g) g) := by
  intro steps
  induction steps with
  | nil => intro g; rfl
  | cons st steps ih =>
    intro g
    show (if FailureOracle.none.graphFails st.op st.key then _ else _) = _
    rw [if_neg (by simp [FailureOracle.none])]
    rw [List.foldl_cons]
    exact ih (st.apply g)

/-- The upserted element is in the keyed upsert's result. -/
theorem keyed_upsert_self_mem {α β : Type} [DecidableEq β] (f : α → β)
    (v : β) (new : α) (_hnew : f new = v) (l : List α) :
    new ∈ (if l.any (fun x => f x == v) then
        l.map (fun x => if f x == v then new else x)
      else l ++ [new]) := by
  by_cases hany : l.any (fun x => f x == v) = true
  · rw [if_pos hany]
    obtain ⟨y, hy, hpy⟩ := List.any_eq_true.mp hany
    exact List.mem_map.mpr ⟨y, hy, by rw [if_pos hpy]⟩
  · rw [if_neg hany]
    exact List.mem_append.mpr (Or.inr (List.mem_singleton.mpr rfl))

/-- Elements of other keys survive the keyed upsert. -/
theorem keyed_upsert_mem_of_ne {α β : Type} [DecidableEq β] (f : α → β)
    (v : β) (new : α) (l : List α) (x : α) (hx : x ∈ l) (hfx : f x ≠ v) :
    x ∈ (if l.any (fun x => f x == v) then
        l.map (fun x => if f x == v then new else x)
      else l ++ [new]) := by
  by_cases hany : l.any (fun x => f x == v) = true
  · rw [if_pos hany]
    refine List.mem_map.mpr ⟨x, hx, ?_⟩
    rw [if_neg (fun hb => hfx (beq_iff_eq.mp hb))]
  · rw [if_neg hany]
    exact List.mem_append.mpr (Or.inl hx)

/-- The trial upsert does not touch Location nodes. -/
theorem create_trial_node_locations (g : GraphState) (a b c : String)
    (ph : List String) : (create_trial_node g a b c ph).locations = g.locations := by
  unfold create_trial_node
  split <;> rfl

/-- The condition upsert does not touch Location nodes. -/
theorem create_condition_node_locations_eq (g : GraphState) (n : String)
    (cat : Option String) :
    (create_condition_node g n cat).locations = g.locations := by
  unfold create_condition_node
  split <;> rfl

/-- The TREATS link does not touch Location nodes. -/
theorem link_trial_to_condition_locations (g : GraphState) (a b : String) :
    (link_trial_to_condition g a b).locations = g.locations := by
  unfold link_trial_to_condition
  split <;> rfl

/-- The LOCATED_IN link does not touch Location nodes. -/
theorem link_trial_to_location_locations (g : GraphState) (a b : String) :
    (link_trial_to_location g a b).locations = g.locations := by
  unfold link_trial_to_location
  split <;> rfl

/-- The invariant only reads Location nodes. -/
theorem usaLocInv_congr {tid : String} {g g' : GraphState}
    (h : g'.locations = g.locations) (hinv : usaLocInv tid g) :
    usaLocInv tid g' := by
  unfold usaLocInv at hinv ⊢
  rw [h]
  exact hinv

/-- With a truthy state the composite id is `"city, state"` (whatever the
country argument). -/
theorem locationKey_state (city st : String) (co : Option String)
    (hst : st ≠ "") :
    locationKey city (some st) co = city ++ ", " ++ st := by
  unfold locationKey
  rw [if_pos]
  · rfl
  · show strTruthy (some st) = true
    unfold strTruthy
    exact decide_eq_true hst

/-- With no state the composite id is `"city, country"`. -/
theorem locationKey_country (city co : String) :
    locationKey city Option.none (some co) = city ++ ", " ++ co := by
  unfold locationKey
  rw [if_neg]
  · rfl
  · show ¬strTruthy Option.none = true
    unfold strTruthy
    simp

/-- A location upsert under a different composite id preserves the
invariant. -/
theorem usaLocInv_create_location_ne (g : GraphState) (city : String)
    (st co : Option String) (tid : String)
    (hkey : locationKey city st co ≠ tid) (hinv : usaLocInv tid g) :
    usaLocInv tid (create_location_node g city st co) := by
  obtain ⟨⟨x, hx, hxid⟩, hall⟩ := hinv
  constructor
  · refine ⟨x, ?_, hxid⟩
    rw [create_location_node_locations]
    refine keyed_upsert_mem_of_ne (fun l => l.locationId)
      (locationKey city st co) ⟨locationKey city st co, city, st, co⟩
      g.locations x hx ?_
    show x.locationId ≠ locationKey city st co
    rw [hxid]
    exact fun hh => hkey hh.symm
  · intro l hl hlid
    rw [create_location_node_locations] at hl
    have hlmem : l ∈ g.locations := by
      refine keyed_upsert_mem_other (fun l => l.locationId)
        (locationKey city st co) ⟨locationKey city st co, city, st, co⟩ rfl
        g.locations l hl ?_
      show l.locationId ≠ locationKey city st co
      rw [hlid]
      exact fun hh => hkey hh.symm
    exact hall l hlmem hlid

/-- The city+state upsert of the projection establishes the invariant: the
node under `"city, state"` exists and carries country `'USA'`. -/
theorem usaLocInv_create_location_self (g : GraphState) (city st : String)
    (hst : st ≠ "") :
    usaLocInv (city ++ ", " ++ st)
      (create_location_node g city (some st) (some "USA")) := by
  have hkey := locationKey_state city st (some "USA") hst
  constructor
  · refine ⟨⟨locationKey city (some st) (some "USA"), city, some st, some "USA"⟩,
      ?_, hkey⟩
    rw [create_location_node_locations]
    exact keyed_upsert_self_mem (fun l => l.locationId)
      (locationKey city (some st) (some "USA"))
      ⟨locationKey city (some st) (some "USA"), city, some st, some "USA"⟩ rfl
      g.locations
  · intro l hl hlid
    rw [create_location_node_locations] at hl
    have hself := keyed_upsert_mem_self (fun l => l.locationId)
      (locationKey city (some st) (some "USA"))
      ⟨locationKey city (some st) (some "USA"), city, some st, some "USA"⟩ rfl
      g.locations l hl
      (by show l.locationId = locationKey city (some st) (some "USA")
          rw [hlid, hkey])
    rw [hself]

/-- `searchableLocations` on a cons, by branch. -/
theorem searchableLocations_cons (loc : LocationRecord)
    (locs : List LocationRecord) :
    searchableLocations (loc :: locs)
      = (if loc.city ≠ "" && loc.state ≠ "" then
          (loc.city ++ ", " ++ loc.state) :: searchableLocations locs
        else if loc.city ≠ "" && loc.country ≠ "" then
          (loc.city ++ ", " ++ loc.country) :: searchableLocations locs
        else searchableLocations locs) := by
  by_cases h1 : (loc.city ≠ "" && loc.state ≠ "") = true
  · rw [if_pos h1]
    unfold searchableLocations
    rw [List.filterMap_cons, if_pos h1]
  · rw [if_neg h1]
    by_cases h2 : (loc.city ≠ "" && loc.country ≠ "") = true
    · rw [if_pos h2]
      unfold searchableLocations
      rw [List.filterMap_cons, if_neg h1, if_pos h2]
    · rw [if_neg h2]
      unfold searchableLocations
      rw [List.filterMap_cons, if_neg h1, if_neg h2]

/-- `locationSteps`, city+state branch. -/
theorem locationSteps_state (nct : String) (loc : LocationRecord)
    (h : (loc.city ≠ "" && loc.state ≠ "") = true) :
    locationSteps nct loc
      = [⟨"create_location_node", loc.city ++ ", " ++ loc.state, fun g =>
            create_location_node g loc.city (some loc.state) (some "USA")⟩,
         ⟨"link_trial_to_location",
          nct ++ "|" ++ (loc.city ++ ", " ++ loc.state),
          fun g => link_trial_to_location g nct
            (loc.city ++ ", " ++ loc.state)⟩] := by
  unfold locationSteps
  rw [if_pos h]

/-- `locationSteps`, city+country branch. -/
theorem locationSteps_country (nct : String) (loc : LocationRecord)
    (h1 : ¬(loc.city ≠ "" && loc.state ≠ "") = true)
    (h2 : (loc.city ≠ "" && loc.country ≠ "") = true) :
    locationSteps nct loc
      = [⟨"create_location_node", loc.city ++ ", " ++ loc.country, fun g =>
            create_location_node g loc.city Option.none (some loc.country)⟩,
         ⟨"link_trial_to_location",
          nct ++ "|" ++ (loc.city ++ ", " ++ loc.country),
          fun g => link_trial_to_location g nct
            (loc.city ++ ", " ++ loc.country)⟩] := by
  unfold locationSteps
  rw [if_neg h1, if_pos h2]

/-- `locationSteps`, skipped record. -/
theorem locationSteps_nil (nct : String) (loc : LocationRecord)
    (h1 : ¬(loc.city ≠ "" && loc.state ≠ "") = true)
    (h2 : ¬(loc.city ≠ "" && loc.country ≠ "") = true) :
    locationSteps nct loc = [] := by
  unfold locationSteps
  rw [if_neg h1, if_neg h2]

/-- Location writes for records whose composite ids avoid `tid` preserve the
invariant. -/
theorem usaLocInv_locSteps_preserve (nct tid : String) :
    ∀ (locs : List LocationRecord) (g : GraphState),
      tid ∉ searchableLocations locs → usaLocInv tid g →
      usaLocInv tid ((locs.flatMap (locationSteps nct)).foldl
        (fun g step => step.apply g) g) := by
  intro locs
  induction locs with
  | nil => intro g _ hinv; simpa using hinv
  | cons l1 locs ih =>
    intro g hnin hinv
    rw [List.flatMap_cons, List.foldl_append]
    by_cases h1 : (l1.city ≠ "" && l1.state ≠ "") = true
    · have hnin' : tid ∉ searchableLocations locs := by
        rw [searchableLocations_cons, if_pos h1] at hnin
        exact fun hh => hnin (List.mem_cons_of_mem _ hh)
      have hhead : (l1.city ++ ", " ++ l1.state) ≠ tid := by
        rw [searchableLocations_cons, if_pos h1] at hnin
        exact fun hh => hnin (hh ▸ List.mem_cons_self _ _)
      refine ih _ hnin' ?_
      rw [locationSteps_state nct l1 h1]
      simp only [List.foldl_cons, List.foldl_nil]
      refine usaLocInv_congr (link_trial_to_location_locations _ _ _) ?_
      refine usaLocInv_create_location_ne g l1.city (some l1.state)
        (some "USA") tid ?_ hinv
      rw [locationKey_state l1.city l1.state (some "USA")
        (of_decide_eq_true ((Bool.and_eq_true _ _).mp h1).2)]
      exact hhead
    · by_cases h2 : (l1.city ≠ "" && l1.country ≠ "") = true
      · have hnin' : tid ∉ searchableLocations locs := by
          rw [searchableLocations_cons, if_neg h1, if_pos h2] at hnin
          exact fun hh => hnin (List.mem_cons_of_mem _ hh)
        have hhead : (l1.city ++ ", " ++ l1.country) ≠ tid := by
          rw [searchableLocations_cons, if_neg h1, if_pos h2] at hnin
          exact fun hh => hnin (hh ▸ List.mem_cons_self _ _)
        refine ih _ hnin' ?_
        rw [locationSteps_country nct l1 h1 h2]
        simp only [List.foldl_cons, List.foldl_nil]
        refine usaLocInv_congr (link_trial_to_location_locations _ _ _) ?_
        refine usaLocInv_create_location_ne g l1.city Option.none
          (some l1.country) tid ?_ hinv
        rw [locationKey_country l1.city l1.country]
        exact hhead
      · have hnin' : tid ∉ searchableLocations locs := by
          rw [searchableLocations_cons, if_neg h1, if_neg h2] at hnin
          exact hnin
        rw [locationSteps_nil nct l1 h1 h2]
        simp only [List.foldl_nil]
        exact ih _ hnin' hinv

/-- Folding the location writes of a record list containing our city+state
entry, with duplicate-free composite ids, establishes (and keeps) the
invariant for that entry's id. -/
theorem usaLocInv_locations_fold (nct : String) :
    ∀ (locs : List LocationRecord) (g : GraphState) (loc : LocationRecord),
      loc ∈ locs → loc.city ≠ "" → loc.state ≠ "" →
      (searchableLocations locs).Nodup →
      usaLocInv (loc.city ++ ", " ++ loc.state)
        ((locs.flatMap (locationSteps nct)).foldl
          (fun g step => step.apply g) g) := by
  intro locs
  induction locs with
  | nil => intro g loc hmem; exact absurd hmem (List.not_mem_nil loc)
  | cons l1 locs ih =>
    intro g loc hmem hcity hstate hnodup
    rw [List.flatMap_cons, List.foldl_append]
    rcases List.mem_cons.mp hmem with heq | hmem'
    · subst heq
      have h1 : (loc.city ≠ "" && loc.state ≠ "") = true := by
        rw [Bool.and_eq_true]
        exact ⟨decide_eq_true hcity, decide_eq_true hstate⟩
      have hrest : (loc.city ++ ", " ++ loc.state) ∉ searchableLocations locs := by
        rw [searchableLocations_cons, if_pos h1] at hnodup
        exact (List.nodup_cons.mp hnodup).1
      refine usaLocInv_locSteps_preserve nct _ locs _ hrest ?_
      rw [locationSteps_state nct loc h1]
      simp only [List.foldl_cons, List.foldl_nil]
      exact usaLocInv_congr (link_trial_to_location_locations _ _ _)
        (usaLocInv_create_location_self g loc.city loc.state hstate)
    · have hnodup' : (searchableLocations locs).Nodup := by
        by_cases h1 : (l1.city ≠ "" && l1.state ≠ "") = true
        · rw [searchableLocations_cons, if_pos h1] at hnodup
          exact (List.nodup_cons.mp hnodup).2
        · by_cases h2 : (l1.city ≠ "" && l1.country ≠ "") = true
          · rw [searchableLocations_cons, if_neg h1, if_pos h2] at hnodup
            exact (List.nodup_cons.mp hnodup).2
          · rw [searchableLocations_cons, if_neg h1, if_neg h2] at hnodup
            exact hnodup
      exact ih _ loc hmem' hcity hstate hnodup'

/-- Under the all-healthy oracle, the projection of a record with a truthy
id is the fold of its write sequence. -/
theorem sync_trial_to_neo4j_none (s : Study) (p : ProtocolSection)
    (nct : String) (g : GraphState) (hp : s.protocolSection = some p)
    (hn : p.nctId = some nct) (hne : nct ≠ "") :
    (sync_trial_to_neo4j FailureOracle.none s g).2
      = (syncSteps nct p).foldl (fun g step => step.apply g) g := by
  unfold sync_trial_to_neo4j
  rw [hp, Option.getD_some]
  dsimp only
  rw [hn, Option.getD_some]
  rw [if_neg hne]
  rw [runSyncOps_none]

/-- C10: for every trial record projected by the cache-triggered sync whose
location entry has a non-empty city and a non-empty state (with the
record's composite location ids duplicate-free), the projected graph holds
a Location node under `"city, state"` whose country property is the
constant `'USA'` — regardless of the country value in the origin record. -/
theorem sync_state_location_recorded_as_usa (g : GraphState) (s : Study)
    (p : ProtocolSection) (nct : String) (loc : LocationRecord)
    (hp : s.protocolSection = some p) (hn : p.nctId = some nct)
    (hne : nct ≠ "") (hmem : loc ∈ p.locations)
    (hcity : loc.city ≠ "") (hstate : loc.state ≠ "")
    (hnodup : (searchableLocations p.locations).Nodup) :
    usaLocInv (loc.city ++ ", " ++ loc.state)
      ((sync_trial_to_neo4j FailureOracle.none s g).2) := by
  rw [sync_trial_to_neo4j_none s p nct g hp hn hne]
  unfold syncSteps
  rw [List.foldl_append]
  exact usaLocInv_locations_fold nct p.locations _ loc hmem hcity hstate hnodup

/-- Witness for C10: the stub record locates the trial in Toronto, Ontario,
CANADA — after projection the graph's `"Toronto, Ontario"` node exists and
records country `'USA'`. -/
theorem sync_state_location_recorded_as_usa_witness :
    (stubStudy.protocolSection = some stubProtocol
      ∧ stubProtocol.nctId = some "NCT777"
      ∧ "NCT777" ≠ ""
      ∧ (LocationRecord.mk "Toronto" "Ontario" "Canada") ∈ stubProtocol.locations
      ∧ "Toronto" ≠ "" ∧ "Ontario" ≠ ""
      ∧ (searchableLocations stubProtocol.locations).Nodup
      ∧ (LocationRecord.mk "Toronto" "Ontario" "Canada").country = "Canada")
    ∧ usaLocInv ("Toronto" ++ ", " ++ "Ontario")
        ((sync_trial_to_neo4j FailureOracle.none stubStudy GraphState.empty).2)
    ∧ (sync_trial_to_neo4j FailureOracle.none stubStudy
        GraphState.empty).2.locations
      = [LocationNode.mk "Toronto, Ontario" "Toronto" (some "Ontario")
          (some "USA")] :=
  ⟨⟨rfl, rfl, by decide, by decide, by decide, by decide, by decide, rfl⟩,
   sync_state_location_recorded_as_usa GraphState.empty stubStudy stubProtocol
     "NCT777" (LocationRecord.mk "Toronto" "Ontario" "Canada") rfl rfl
     (by decide) (by decide) (by decide) (by decide) (by decide),
   by decide⟩

end Clinect
